import Mathlib

/-!
# Verification of the ssh-conn terminal UI controller

Shallow embedding of the event router, modal state machine, probe-result
merge step and process-handoff protocol of `src/ui.rs`, together with the
port validation of `src/ui.rs::save_form_data` / `src/utils.rs` and the
SSH-config parser of `src/config.rs` (used to justify well-formedness of
the host lists the storage collaborator returns).

External effects (the terminal device, the storage collaborator, the i18n
table, probe threads) are modelled as an explicit environment
(`StorageEnv`) supplying the collaborator responses of one router
iteration, and as traces of abstract terminal actions.  Rust `u16` is
modelled as `Nat` with the explicit `≤ 65535` bound; Rust `String.pop`
as `String.dropRight 1`.
-/

namespace SshConn

/-- Connection status of a host (src/models.rs `ConnectionStatus`); the
`Connected` latency is kept in milliseconds. -/
inductive ConnectionStatus
  | Unknown
  | Connecting
  | Connected (ms : Nat)
  | Failed (error : String)
  deriving DecidableEq, Repr

instance : Inhabited ConnectionStatus := ⟨.Unknown⟩

/-- An SSH host profile (src/models.rs `SshHost`).  The `custom_options`
hash map is modelled as an association list. -/
structure SshHost where
  host : String
  hostname : Option String := none
  user : Option String := none
  port : Option String := none
  proxy_command : Option String := none
  identity_file : Option String := none
  connect_timeout : Option String := none
  server_alive_interval : Option String := none
  custom_options : List (String × String) := []
  connection_status : ConnectionStatus := .Unknown
  deriving DecidableEq, Repr

/-- Form field type tag (src/models.rs `FormFieldType`). -/
inductive FormFieldType
  | Text | Number | Password | Path
  deriving DecidableEq, Repr

/-- A form field (src/models.rs `FormField`). -/
structure FormField where
  label : String
  value : String
  required : Bool := false
  field_type : FormFieldType := .Text
  readonly : Bool := false
  deriving DecidableEq, Repr

/-- `FormField::new` (src/models.rs). -/
def FormField.new (label value : String) : FormField :=
  { label := label, value := value }

/-- The key events the router distinguishes (crossterm `KeyCode` restricted
to the constructors `src/ui.rs` matches on; every other key is `other`). -/
inductive KeyCode
  | enter | esc | backspace | tab | down | up | left | right
  | char (c : Char)
  | other
  deriving DecidableEq, Repr

/-- Search overlay state (src/ui.rs `SearchState`): `query` is the
committed query, `input` the draft input. -/
structure SearchState where
  query : Option String := none
  show_popup : Bool := false
  input : String := ""
  deriving DecidableEq, Repr

/-- Delete-confirmation overlay state (src/ui.rs `DeleteConfirmState`).
The Rust field `show` is a Lean keyword and is rendered as `shown`. -/
structure DeleteConfirmState where
  shown : Bool := false
  host : Option String := none
  input : String := ""
  deriving DecidableEq, Repr

/-- Form overlay state (src/ui.rs `FormState`). -/
structure FormState where
  show_add : Bool := false
  show_edit : Bool := false
  fields : List FormField := []
  focus_index : Nat := 0
  editing_field : Bool := false
  edit_host_original : Option SshHost := none
  error_field_index : Option Nat := none
  deriving DecidableEq, Repr

/-- Error dialog state (src/ui.rs `ErrorModalState`); `shown` renders the
Rust field `show`. -/
structure ErrorModalState where
  shown : Bool := false
  message : String := ""
  deriving DecidableEq, Repr

/-- Host-key confirmation overlay state (src/ui.rs `HostKeyConfirmState`);
`selection` is 0 for Yes and 1 for No; `shown` renders the Rust field
`show`. -/
structure HostKeyConfirmState where
  shown : Bool := false
  host : Option String := none
  selection : Nat := 0
  deriving DecidableEq, Repr

/-- The UI state manager (src/ui.rs `UiState`). -/
structure UiState where
  search : SearchState := {}
  delete_confirm : DeleteConfirmState := {}
  form : FormState := {}
  error_modal : ErrorModalState := {}
  host_key_confirm : HostKeyConfirmState := {}
  deriving DecidableEq, Repr

/-- The mutable state of `main_event_loop` (src/ui.rs): the UI state, the
working copy of the profile list, the selected index, and the table
selection (`TableState::selected`). -/
structure LoopState where
  ui : UiState
  hosts : List SshHost
  selected : Nat
  table_sel : Option Nat
  deriving DecidableEq, Repr

/-- The translation function `t` (src/i18n.rs).  The translation tables
live in `locales/*.yaml`, outside the core; `get_text` falls back to the
key itself when no table has it, and no claim depends on the translated
text, so the lookup is modelled as that final fallback. -/
def t (key : String) : String := key

/-- Rust `str::parse` restricted to an unsigned integer literal: an
optional leading `+` followed by one or more ASCII digits, with the
unbounded value (src/ui.rs uses `parse::<u16>`, see `rustParseU16`). -/
def rustStrParseNat (s : String) : Option Nat :=
  let cs := match s.data with
    | '+' :: rest => rest
    | cs => cs
  if cs = [] then none
  else if cs.all (fun c => c.isDigit) then
    some (cs.foldl (fun acc c => acc * 10 + (c.toNat - '0'.toNat)) 0)
  else none

/-- Rust `str::parse::<u16>`: as `rustStrParseNat` but any value past
`u16::MAX = 65535` is an overflow error. -/
def rustParseU16 (s : String) : Option Nat :=
  match rustStrParseNat s with
  | some v => if v ≤ 65535 then some v else none
  | none => none

/-- The collaborator responses available to one router iteration.  The
storage collaborator (`ConfigManager`), credential store and external
processes are out-of-scope I/O (spec §6); an arbitrary `StorageEnv` stands
for their answers during the iteration.  `pending` is the content of the
mutex-guarded shared probe-result buffer when the iteration drains it. -/
structure StorageEnv where
  /-- `ConfigManager::get_hosts` (after `clear_cache` where the code does so). -/
  get_hosts : List SshHost
  /-- `ConfigManager::search_hosts`. -/
  search_results : String → List SshHost
  /-- `ConfigManager::try_connect_host`: `(success, host_key_error, error_message)`. -/
  try_connect : String → Bool × Bool × Option String
  /-- Result of `add_host` / `edit_host`: `none` is `Ok`, `some e` the error text. -/
  save_result : Option String
  /-- Result of `connect_host_for_tui`: `none` is `Ok`, `some e` the error text. -/
  connect_error : Option String
  /-- Result of `handle_host_key_verification_failed_for_tui`. -/
  host_key_error : Option String
  /-- Contents of the `pending_connection_tests` buffer at merge time. -/
  pending : List (Nat × Option ConnectionStatus)

/-- `UiManager::show_error_message` (src/ui.rs:97). -/
def showErrorMessage (message : String) (u : UiState) : UiState :=
  { u with error_modal := { u.error_modal with message := message, shown := true } }

/-- `UiManager::show_error_with_field` (src/ui.rs:104). -/
def showErrorWithField (message : String) (field_index : Nat) (u : UiState) : UiState :=
  let u := showErrorMessage message u
  { u with form := { u.form with error_field_index := some field_index } }

/-- `UiManager::handle_error_modal` (src/ui.rs:268): any key dismisses the
error dialog and clears the error-field marker. -/
def handleErrorModal (u : UiState) : UiState :=
  { u with
    error_modal := { u.error_modal with shown := false, message := "" },
    form := { u.form with error_field_index := none } }

/-- `UiManager::reset_delete_confirm` (src/ui.rs:921). -/
def resetDeleteConfirm (u : UiState) : UiState :=
  { u with delete_confirm := { shown := false, host := none, input := "" } }

/-- `UiManager::reset_form` (src/ui.rs:1015). -/
def resetForm (u : UiState) : UiState :=
  { u with form :=
    { show_add := false, show_edit := false, fields := [], focus_index := 0,
      editing_field := false, edit_host_original := none, error_field_index := none } }

/-- `UiManager::reset_host_key_confirm` (src/ui.rs:1145). -/
def resetHostKeyConfirm (u : UiState) : UiState :=
  { u with host_key_confirm := { shown := false, host := none, selection := 0 } }

/-- `UiManager::reset_all_ui_state` (src/ui.rs:1383).  Note that the
committed search `query` is deliberately not cleared. -/
def resetAllUiState (u : UiState) : UiState :=
  { u with
    search := { u.search with show_popup := false, input := "" },
    delete_confirm := { shown := false, host := none, input := "" },
    form := { show_add := false, show_edit := false, fields := [], focus_index := 0,
              editing_field := false, edit_host_original := none, error_field_index := none },
    error_modal := { shown := false, message := "" },
    host_key_confirm := { shown := false, host := none, selection := 0 } }

/-- `UiManager::show_add_form` (src/ui.rs:1526). -/
def showAddForm (u : UiState) : UiState :=
  { u with form := { u.form with
      show_add := true,
      fields :=
        [FormField.new (t "form.host") "",
         FormField.new (t "form.hostname") "",
         FormField.new (t "form.user") "",
         FormField.new (t "form.port") "",
         FormField.new (t "form.proxy_command") "",
         FormField.new (t "form.identity_file") "",
         FormField.new (t "form.password") ""],
      focus_index := 0,
      editing_field := false } }

/-- `UiManager::show_edit_form` (src/ui.rs:1542); in edit mode the initial
focus is on the second field. -/
def showEditForm (h : SshHost) (u : UiState) : UiState :=
  { u with form := { u.form with
      show_edit := true,
      edit_host_original := some h,
      fields :=
        [FormField.new (t "form.host") h.host,
         FormField.new (t "form.hostname") (h.hostname.getD ""),
         FormField.new (t "form.user") (h.user.getD ""),
         FormField.new (t "form.port") (h.port.getD ""),
         FormField.new (t "form.proxy_command") (h.proxy_command.getD ""),
         FormField.new (t "form.identity_file") (h.identity_file.getD ""),
         FormField.new (t "form.password") ""],
      focus_index := 1,
      editing_field := false } }

/-- `UiManager::show_delete_confirm` (src/ui.rs:1568). -/
def showDeleteConfirm (host : String) (u : UiState) : UiState :=
  { u with delete_confirm := { shown := true, host := some host, input := "" } }

/-- Rust `str::trim` and `str::to_lowercase`, modelled over the character
list.  (Core Lean's byte-position-based `String.trim`/`String.toLower` are
extensionally the same on these inputs but do not reduce definitionally,
so the embedding uses the list-based forms.) -/
def strTrim (s : String) : String :=
  ⟨((s.data.dropWhile Char.isWhitespace).reverse.dropWhile Char.isWhitespace).reverse⟩

/-- See `strTrim`. -/
def strToLower (s : String) : String :=
  ⟨s.data.map Char.toLower⟩

/-- `UiManager::show_search_popup` (src/ui.rs:1575): reopening restores the
committed query into the draft input. -/
def showSearchPopup (u : UiState) : UiState :=
  let input := match u.search.query with
    | some q => q
    | none => ""
  { u with search := { u.search with show_popup := true, input := input } }

/-- `UiManager::update_search_results` (src/ui.rs:862): live filtering.
Note that it overwrites the committed `query` from the trimmed draft. -/
def updateSearchResults (env : StorageEnv) (s : LoopState) : LoopState :=
  let q := strTrim s.ui.search.input
  let s :=
    if q = "" then
      { s with ui := { s.ui with search := { s.ui.search with query := none } },
               hosts := env.get_hosts }
    else
      { s with ui := { s.ui with search := { s.ui.search with query := some q } },
               hosts := env.search_results q }
  let s := { s with selected := 0 }
  if s.hosts = [] then { s with table_sel := none }
  else { s with table_sel := some s.selected }

/-- `UiManager::handle_search_event` (src/ui.rs:815).  Rust `String::pop`
on the draft is `String.dropRight 1`. -/
def handleSearchEvent (env : StorageEnv) (key : KeyCode) (s : LoopState) : LoopState :=
  match key with
  | .enter =>
    let q := strTrim s.ui.search.input
    let s :=
      if q = "" then
        { s with ui := { s.ui with search := { s.ui.search with query := none } },
                 hosts := env.get_hosts }
      else
        { s with ui := { s.ui with search := { s.ui.search with query := some q } },
                 hosts := env.search_results q }
    let s := { s with selected := 0 }
    let s :=
      if s.hosts = [] then { s with table_sel := none }
      else { s with table_sel := some s.selected }
    { s with ui := { s.ui with search :=
        { s.ui.search with show_popup := false, input := "" } } }
  | .esc =>
    { s with ui := { s.ui with search :=
        { s.ui.search with show_popup := false, input := "" } } }
  | .char c =>
    let s := { s with ui := { s.ui with search :=
        { s.ui.search with input := s.ui.search.input.push c } } }
    updateSearchResults env s
  | .backspace =>
    let s := { s with ui := { s.ui with search :=
        { s.ui.search with input := s.ui.search.input.dropRight 1 } } }
    updateSearchResults env s
  | _ => s

/-- `UiManager::reload_hosts` (src/ui.rs:928): reload the list, clamp the
selection to the new bounds, mirror it into the table state. -/
def reloadHosts (env : StorageEnv) (s : LoopState) : LoopState :=
  let hosts := env.get_hosts
  let selected :=
    if hosts.length ≤ s.selected ∧ hosts ≠ [] then hosts.length - 1 else s.selected
  let table_sel := if hosts ≠ [] then some selected else none
  { s with hosts := hosts, selected := selected, table_sel := table_sel }

/-- `UiManager::handle_delete_confirm_event` (src/ui.rs:886).  The second
component records the delete request sent to the storage collaborator
(`delete_host`, whose own result the code discards with `let _ =`). -/
def handleDeleteConfirmEvent (env : StorageEnv) (key : KeyCode) (s : LoopState) :
    LoopState × Option String :=
  match key with
  | .enter =>
    if strToLower (strTrim s.ui.delete_confirm.input) = "yes" then
      match s.ui.delete_confirm.host with
      | some h =>
        let s := { s with ui := resetDeleteConfirm s.ui }
        (reloadHosts env s, some h)
      | none => (s, none)
    else (s, none)
  | .esc => ({ s with ui := resetDeleteConfirm s.ui }, none)
  | .char c =>
    ({ s with ui := { s.ui with delete_confirm :=
        { s.ui.delete_confirm with input := s.ui.delete_confirm.input.push c } } }, none)
  | .backspace =>
    ({ s with ui := { s.ui with delete_confirm :=
        { s.ui.delete_confirm with input := s.ui.delete_confirm.input.dropRight 1 } } }, none)
  | _ => (s, none)

/-- Helper: update the value of field `i` (no-op when out of bounds, like
the bounds-guarded Rust accesses). -/
def setFieldValue (fields : List FormField) (i : Nat) (g : String → String) :
    List FormField :=
  match fields.get? i with
  | some fld => fields.set i { fld with value := g fld.value }
  | none => fields

/-- `UiManager::move_form_focus_down` (src/ui.rs:1026): skips the
read-only first field in edit mode. -/
def moveFormFocusDown (u : UiState) : UiState :=
  if u.form.fields = [] then u
  else
    let n := u.form.fields.length
    let next := (u.form.focus_index + 1) % n
    let next := if u.form.show_edit ∧ next = 0 ∧ 1 < n then (next + 1) % n else next
    { u with form := { u.form with focus_index := next } }

/-- `UiManager::move_form_focus_up` (src/ui.rs:1037). -/
def moveFormFocusUp (u : UiState) : UiState :=
  if u.form.fields = [] then u
  else
    let n := u.form.fields.length
    let prev := if u.form.focus_index = 0 then n - 1 else u.form.focus_index - 1
    let prev :=
      if u.form.show_edit ∧ prev = 0 ∧ 1 < n then
        if prev = 0 then n - 1 else prev - 1
      else prev
    { u with form := { u.form with focus_index := prev } }

/-- `UiManager::handle_form_enter` (src/ui.rs:1056). -/
def handleFormEnter (u : UiState) : UiState :=
  if u.form.editing_field then
    let f := { u.form with editing_field := false }
    let f :=
      if f.focus_index + 1 < f.fields.length then
        { f with focus_index := f.focus_index + 1, editing_field := true }
      else f
    { u with form := f }
  else if u.form.show_edit ∧ u.form.focus_index = 0 then
    if u.form.focus_index + 1 < u.form.fields.length then
      { u with form := { u.form with focus_index := u.form.focus_index + 1,
                                     editing_field := true } }
    else u
  else
    let f := { u.form with editing_field := true }
    let f :=
      if f.error_field_index = some f.focus_index then
        { f with error_field_index := none }
      else f
    { u with form := f }

/-- `UiManager::handle_form_input` (src/ui.rs:1077): appends a character
to the focused field, except to the read-only first field in edit mode. -/
def handleFormInput (c : Char) (u : UiState) : UiState :=
  if u.form.focus_index < u.form.fields.length ∧
      ¬(u.form.show_edit ∧ u.form.focus_index = 0) then
    { u with form := { u.form with
        fields := setFieldValue u.form.fields u.form.focus_index (fun v => v.push c) } }
  else u

/-- `UiManager::handle_form_backspace` (src/ui.rs:1088). -/
def handleFormBackspace (u : UiState) : UiState :=
  if u.form.focus_index < u.form.fields.length ∧
      ¬(u.form.show_edit ∧ u.form.focus_index = 0) then
    { u with form := { u.form with
        fields := setFieldValue u.form.fields u.form.focus_index (fun v => v.dropRight 1) } }
  else u

/-- The bounds-checked but *not* readonly-checked push that the
`Char('q')`/`Char('s')`-while-editing arms of `handle_form_event` perform
(src/ui.rs:968 and 994). -/
def pushCharUnchecked (c : Char) (u : UiState) : UiState :=
  if u.form.focus_index < u.form.fields.length then
    { u with form := { u.form with
        fields := setFieldValue u.form.fields u.form.focus_index (fun v => v.push c) } }
  else u

/-- The CRUD request `save_form_data` issues to the storage collaborator:
`add_host(host, hostname, user, port, proxy_command, identity_file,
password)` or `edit_host(..)` with empty optional fields passed as `None`
(src/ui.rs:727-785). -/
inductive SaveRequest
  | add (host hostname : String) (user : Option String) (port : Option Nat)
      (proxy_command identity_file password : Option String)
  | edit (host : String) (hostname user : Option String) (port : Option Nat)
      (proxy_command identity_file password : Option String)
  deriving DecidableEq, Repr

/-- `None` for an empty field value, `Some` otherwise (the argument
pattern of `save_form_data`). -/
def optField (v : String) : Option String :=
  if v = "" then none else some v

/-- The port argument passed to a `SaveRequest`. -/
def SaveRequest.portArg : SaveRequest → Option Nat
  | .add _ _ _ p _ _ _ => p
  | .edit _ _ _ p _ _ _ => p

/-- The port-validation step of `save_form_data` (src/ui.rs:702-724):
empty means unset (`Ok none`); otherwise the value must `parse::<u16>`
and be nonzero, else the step fails marking field index 3 with the given
error key. -/
def validateFormPort (v : String) : Except String (Option Nat) :=
  if v = "" then .ok none
  else
    match rustParseU16 v with
    | some p =>
      if p = 0 then .error (t "error.error_port_range")
      else .ok (some p)
    | none => .error (t "error.error_port_format")

/-- `UiManager::save_form_data` (src/ui.rs:671).  Returns `none` exactly
when a Rust field index would panic (reachable states have 7 fields, see
`reachable_inv`); otherwise `(state, saved, request)` where `saved`
mirrors the Rust `Ok(true)`/`Ok(false)` and `request` is the CRUD request
sent to the storage collaborator, if any. -/
def saveFormData (env : StorageEnv) (s : LoopState) :
    Option (LoopState × Bool × Option SaveRequest) :=
  let f := s.ui.form
  if f.fields.length < 2 then
    some ({ s with ui := showErrorMessage (t "error.error_required_fields") s.ui },
          false, none)
  else do
    let f0 ← f.fields.get? 0
    if f0.value = "" then
      let u := showErrorWithField (t "error.error_required_fields") 0 s.ui
      let u := { u with form := { u.form with focus_index := 0, editing_field := true } }
      return ({ s with ui := u }, false, none)
    let f1 ← f.fields.get? 1
    if f1.value = "" then
      let u := showErrorWithField (t "error.error_required_fields") 1 s.ui
      let u := { u with form := { u.form with focus_index := 1, editing_field := true } }
      return ({ s with ui := u }, false, none)
    let f3 ← f.fields.get? 3
    match validateFormPort f3.value with
    | .error msg =>
      let u := showErrorWithField msg 3 s.ui
      let u := { u with form := { u.form with focus_index := 3, editing_field := true } }
      return ({ s with ui := u }, false, none)
    | .ok port =>
      let f2 ← f.fields.get? 2
      let f4 ← f.fields.get? 4
      let f5 ← f.fields.get? 5
      let f6 ← f.fields.get? 6
      let request :=
        if f.show_add then
          SaveRequest.add f0.value f1.value (optField f2.value) port
            (optField f4.value) (optField f5.value) (optField f6.value)
        else
          SaveRequest.edit f0.value (optField f1.value) (optField f2.value) port
            (optField f4.value) (optField f5.value) (optField f6.value)
      match env.save_result with
      | none =>
        let hosts := env.get_hosts
        let selected :=
          if f.show_add then 0
          else if hosts.length ≤ s.selected ∧ hosts ≠ [] then hosts.length - 1
          else s.selected
        let table_sel := if hosts ≠ [] then some selected else none
        return ({ s with hosts := hosts, selected := selected, table_sel := table_sel },
                true, some request)
      | some e =>
        return ({ s with ui := showErrorMessage e s.ui }, false, some request)

/-- `UiManager::handle_form_event` (src/ui.rs:948).  Returns `none` when a
Rust index would panic (impossible in reachable states), otherwise the new
state and the CRUD request sent, if any. -/
def handleFormEvent (env : StorageEnv) (key : KeyCode) (s : LoopState) :
    Option (LoopState × Option SaveRequest) :=
  match key with
  | .esc =>
    if s.ui.form.editing_field then
      some ({ s with ui :=
        { s.ui with form := { s.ui.form with editing_field := false } } }, none)
    else some ({ s with ui := resetForm s.ui }, none)
  | .tab =>
    if ¬s.ui.form.editing_field then
      some ({ s with ui := moveFormFocusDown s.ui }, none)
    else some (s, none)
  | .down =>
    if ¬s.ui.form.editing_field then
      some ({ s with ui := moveFormFocusDown s.ui }, none)
    else some (s, none)
  | .up =>
    if ¬s.ui.form.editing_field then
      some ({ s with ui := moveFormFocusUp s.ui }, none)
    else some (s, none)
  | .enter => some ({ s with ui := handleFormEnter s.ui }, none)
  | .char c =>
    if c = 'q' ∧ ¬s.ui.form.editing_field then
      some ({ s with ui := resetForm s.ui }, none)
    else if c = 'q' ∧ s.ui.form.editing_field then
      some ({ s with ui := pushCharUnchecked 'q' s.ui }, none)
    else if c = 's' ∧ ¬s.ui.form.editing_field then do
      let (s', saved, req) ← saveFormData env s
      if saved then return ({ s' with ui := resetForm s'.ui }, req)
      else return (s', req)
    else if c = 's' ∧ s.ui.form.editing_field then
      some ({ s with ui := pushCharUnchecked 's' s.ui }, none)
    else if s.ui.form.editing_field then
      some ({ s with ui := handleFormInput c s.ui }, none)
    else some (s, none)
  | .backspace =>
    if s.ui.form.editing_field then
      some ({ s with ui := handleFormBackspace s.ui }, none)
    else some (s, none)
  | _ => some (s, none)

/-- Set the connection status of host `i` (bounds-guarded, like the Rust
`hosts[*host_index]` writes that only happen after an index check). -/
def setHostStatus (hosts : List SshHost) (i : Nat) (st : ConnectionStatus) :
    List SshHost :=
  match hosts.get? i with
  | some h => hosts.set i { h with connection_status := st }
  | none => hosts

/-- First pass of `update_connection_test_results` (src/ui.rs:1413-1420):
walk the pending buffer with its enumeration index `i`, write every
completed in-bounds result into the host list and record the buffer
positions of those entries. -/
def mergePass : List (Nat × Option ConnectionStatus) → Nat → List SshHost →
    List SshHost × List Nat
  | [], _, hosts => (hosts, [])
  | (host_index, statusOpt) :: rest, i, hosts =>
    match statusOpt with
    | some st =>
      if host_index < hosts.length then
        let hosts := setHostStatus hosts host_index st
        let r := mergePass rest (i + 1) hosts
        (r.1, i :: r.2)
      else mergePass rest (i + 1) hosts
    | none => mergePass rest (i + 1) hosts

/-- Second pass (src/ui.rs:1423-1425): remove the recorded positions from
the buffer, iterating them in reverse (descending) order. -/
def removeIdxs (l : List (Nat × Option ConnectionStatus)) (idxs : List Nat) :
    List (Nat × Option ConnectionStatus) :=
  idxs.reverse.foldl (fun acc i => acc.eraseIdx i) l

/-- `UiManager::update_connection_test_results` (src/ui.rs:1409): merge the
shared probe-result buffer into the host list; returns the updated host
list and the remaining buffer contents. -/
def updateConnectionTestResults (hosts : List SshHost)
    (pending : List (Nat × Option ConnectionStatus)) :
    List SshHost × List (Nat × Option ConnectionStatus) :=
  let r := mergePass pending 0 hosts
  (r.1, removeIdxs pending r.2)

/-- `UiManager::start_connection_test` (src/ui.rs:1585): mark the selected
host `Connecting` (the spawned probe thread itself is out of scope; its
eventual buffer write is covered by `StorageEnv.pending`). -/
def startConnectionTest (s : LoopState) : LoopState :=
  if s.hosts.length ≤ s.selected then s
  else { s with hosts := setHostStatus s.hosts s.selected .Connecting }

/-- `UiManager::test_all_connections` (src/ui.rs:1643): mark every host
`Connecting`. -/
def testAllConnections (s : LoopState) : LoopState :=
  { s with hosts := s.hosts.map (fun h => { h with connection_status := .Connecting }) }

/-- Abstract terminal/process actions of the handoff protocol
(`exit_and_connect`, `refresh_after_connection`,
`reinitialize_event_system` in src/ui.rs). -/
inductive TermAction
  | disableRaw
  | leaveAltScreen
  | runExternal
  | settleDelay
  | enableRaw
  | enterAltScreen
  | clearScreen
  | drainInput
  | rebuildBackend
  | clearTerminal
  | resetTermAttrs
  | flushOutput
  | reloadList
  | forceRedraw
  | showError (message : String)
  deriving DecidableEq, Repr

/-- Raw-input and alternate-screen mode of the terminal device. -/
structure TermState where
  raw : Bool
  alt_screen : Bool
  deriving DecidableEq, Repr

/-- Effect of one terminal action on the mode flags. -/
def applyTermAction (ts : TermState) : TermAction → TermState
  | .disableRaw => { ts with raw := false }
  | .enableRaw => { ts with raw := true }
  | .leaveAltScreen => { ts with alt_screen := false }
  | .enterAltScreen => { ts with alt_screen := true }
  | _ => ts

/-- Fold a trace of terminal actions over the mode flags. -/
def applyTermTrace (ts : TermState) (tr : List TermAction) : TermState :=
  tr.foldl applyTermAction ts

/-- Trace of `UiManager::reinitialize_event_system` (src/ui.rs:1703). -/
def reinitEventsTrace : List TermAction :=
  [.flushOutput, .drainInput, .disableRaw, .enableRaw]

/-- Terminal-action trace of `UiManager::refresh_after_connection`
(src/ui.rs:1279): stty/tput restore commands, raw-mode bounce, input
drain, UI reset (state change, no terminal action), event-system
reinitialisation, then the list reload. -/
def refreshTrace : List TermAction :=
  [.resetTermAttrs, .settleDelay, .disableRaw, .settleDelay, .enableRaw, .drainInput]
    ++ reinitEventsTrace ++ [.reloadList]

/-- State change of `UiManager::refresh_after_connection` (src/ui.rs:1279):
reset all UI state, re-fetch the list honouring the committed search
query, clamp the selection, mirror it into the table state (zeroing the
selection when the list is empty).  The Rust code reads the query after
`reset_all_ui_state`, which preserves it, so the model reads it from the
incoming state. -/
def refreshAfterConnection (env : StorageEnv) (s : LoopState) : LoopState :=
  let hosts :=
    match s.ui.search.query with
    | some q => env.search_results q
    | none => env.get_hosts
  let selected :=
    if hosts.length ≤ s.selected ∧ hosts ≠ [] then hosts.length - 1 else s.selected
  if hosts ≠ [] then
    { s with ui := resetAllUiState s.ui, hosts := hosts,
             selected := selected, table_sel := some selected }
  else
    { s with ui := resetAllUiState s.ui, hosts := hosts,
             selected := 0, table_sel := none }

/-- The fixed reclaim sequence of `exit_and_connect` (src/ui.rs:1221,
steps 1-10 before any error is surfaced): leave raw/alternate-screen mode,
run the external command, settle, re-enter both modes, clear, drain stale
input, rebuild the backend, refresh the list, reinitialise events, force a
full redraw. -/
def reclaimTrace : List TermAction :=
  [.disableRaw, .leaveAltScreen, .runExternal, .settleDelay, .enableRaw,
   .enterAltScreen, .clearScreen, .drainInput, .rebuildBackend, .clearTerminal]
    ++ refreshTrace ++ reinitEventsTrace ++ [.forceRedraw]

/-- `UiManager::exit_and_connect` (src/ui.rs:1221): the process handoff.
Returns the new state and the ordered terminal-action trace; the
connection error, if any, is surfaced via the error dialog only after the
whole reclaim sequence. -/
def exitAndConnect (env : StorageEnv) (s : LoopState) : LoopState × List TermAction :=
  let s1 := refreshAfterConnection env s
  match env.connect_error with
  | some e =>
    let msg := t "error.connection_failed" ++ ": " ++ e
    ({ s1 with ui := showErrorMessage msg s1.ui }, reclaimTrace ++ [.showError msg])
  | none => (s1, reclaimTrace)

/-- `UiManager::handle_host_key_accept` (src/ui.rs:1152): same protocol as
`exit_and_connect` but around the host-key purge-and-retry collaborator
call. -/
def handleHostKeyAccept (env : StorageEnv) (s : LoopState) : LoopState :=
  let s1 := refreshAfterConnection env s
  match env.host_key_error with
  | some e =>
    { s1 with ui :=
        showErrorMessage ((t "host_key_processing_failed").replace "\x7b\x7d" e) s1.ui }
  | none => s1

/-- `UiManager::handle_host_key_event` (src/ui.rs:1099). -/
def handleHostKeyEvent (env : StorageEnv) (key : KeyCode) (s : LoopState) : LoopState :=
  match key with
  | .enter =>
    let s :=
      match s.ui.host_key_confirm.host with
      | some _ =>
        if s.ui.host_key_confirm.selection = 0 then handleHostKeyAccept env s else s
      | none => s
    { s with ui := resetHostKeyConfirm s.ui }
  | .esc => { s with ui := resetHostKeyConfirm s.ui }
  | .left =>
    { s with ui := { s.ui with host_key_confirm :=
        { s.ui.host_key_confirm with selection := 0 } } }
  | .right =>
    { s with ui := { s.ui with host_key_confirm :=
        { s.ui.host_key_confirm with selection := 1 } } }
  | .char c =>
    if c = 'h' then
      { s with ui := { s.ui with host_key_confirm :=
          { s.ui.host_key_confirm with selection := 0 } } }
    else if c = 'l' then
      { s with ui := { s.ui with host_key_confirm :=
          { s.ui.host_key_confirm with selection := 1 } } }
    else if c = 'y' ∨ c = 'Y' then
      let s :=
        match s.ui.host_key_confirm.host with
        | some _ => handleHostKeyAccept env s
        | none => s
      { s with ui := resetHostKeyConfirm s.ui }
    else if c = 'n' ∨ c = 'N' then
      { s with ui := resetHostKeyConfirm s.ui }
    else s
  | _ => s

/-- `UiManager::handle_connect_request` (src/ui.rs:1498): branch on the
probe result — host-key mismatch opens the confirmation overlay, generic
failure opens the error dialog, success performs the handoff. -/
def handleConnectRequest (env : StorageEnv) (host : String) (s : LoopState) : LoopState :=
  let r := env.try_connect host
  if r.2.1 then
    { s with ui := { s.ui with host_key_confirm :=
        { shown := true, host := some host, selection := 0 } } }
  else if ¬r.1 then
    match r.2.2 with
    | some e =>
      { s with ui := showErrorMessage (t "error.connection_failed" ++ ": " ++ e) s.ui }
    | none => { s with ui := showErrorMessage (t "error.connection_failed") s.ui }
  else (exitAndConnect env s).1

/-- `UiManager::handle_main_event` (src/ui.rs:1430).  Returns `none` when
`hosts[*selected]` would panic, and otherwise the new state with the quit
flag. -/
def handleMainEvent (env : StorageEnv) (key : KeyCode) (s : LoopState) :
    Option (LoopState × Bool) :=
  match key with
  | .down =>
    if s.hosts ≠ [] ∧ s.selected < s.hosts.length - 1 then
      some ({ s with selected := s.selected + 1, table_sel := some (s.selected + 1) }, false)
    else some (s, false)
  | .up =>
    if s.hosts ≠ [] ∧ 0 < s.selected then
      some ({ s with selected := s.selected - 1, table_sel := some (s.selected - 1) }, false)
    else some (s, false)
  | .enter =>
    if s.hosts ≠ [] then do
      let h ← s.hosts.get? s.selected
      return (handleConnectRequest env h.host s, false)
    else some (s, false)
  | .char c =>
    if c = 'q' then some (s, true)
    else if c = 'a' then some ({ s with ui := showAddForm s.ui }, false)
    else if c = 'e' then
      if s.hosts ≠ [] then do
        let h ← s.hosts.get? s.selected
        return ({ s with ui := showEditForm h s.ui }, false)
      else some (s, false)
    else if c = 'd' then
      if s.hosts ≠ [] then do
        let h ← s.hosts.get? s.selected
        return ({ s with ui := showDeleteConfirm h.host s.ui }, false)
      else some (s, false)
    else if c = 's' ∨ c = '/' then
      some ({ s with ui := showSearchPopup s.ui }, false)
    else if c = 't' then
      if s.hosts ≠ [] then some (startConnectionTest s, false) else some (s, false)
    else if c = 'T' then
      if s.hosts ≠ [] then some (testAllConnections s, false) else some (s, false)
    else some (s, false)
  | _ => some (s, false)

/-- The dispatch order of `UiManager::process_events` (src/ui.rs:222) for
one key event: the error dialog swallows everything, then the active
overlay, else the main list.  `none` models a Rust index panic; the `Bool`
is the quit flag. -/
def processKey (env : StorageEnv) (key : KeyCode) (s : LoopState) :
    Option (LoopState × Bool) :=
  if s.ui.error_modal.shown then some ({ s with ui := handleErrorModal s.ui }, false)
  else if s.ui.search.show_popup then some (handleSearchEvent env key s, false)
  else if s.ui.host_key_confirm.shown then some (handleHostKeyEvent env key s, false)
  else if s.ui.delete_confirm.shown then
    some ((handleDeleteConfirmEvent env key s).1, false)
  else if s.ui.form.show_add ∨ s.ui.form.show_edit then
    (handleFormEvent env key s).map (fun r => (r.1, false))
  else handleMainEvent env key s

/-- One iteration of `UiManager::main_event_loop` (src/ui.rs:152) on the
happy render path: drain the probe-result buffer into the host list first,
then (if the 100ms poll yielded one) route the key event.  `none` models a
panic, and the `Bool` the loop-exit flag. -/
def iterStep (env : StorageEnv) (key : Option KeyCode) (s : LoopState) :
    Option (LoopState × Bool) :=
  let s := { s with hosts := (updateConnectionTestResults s.hosts env.pending).1 }
  match key with
  | none => some (s, false)
  | some k => processKey env k s

/-- The state `start_tui` (src/ui.rs:111) enters the loop with: a
non-empty host list (it returns early otherwise), selection 0 mirrored in
the table state, and every host marked `Connecting` by the initial
`test_all_connections`. -/
def initLoopState (hosts : List SshHost) : LoopState :=
  testAllConnections { ui := {}, hosts := hosts, selected := 0, table_sel := some 0 }

/-- First non-`"*"` token of a `Host` line (src/config.rs:141-147: the
parser ignores wildcard patterns and takes the first concrete name). -/
def firstNonWildcard : List String → Option String
  | [] => none
  | tok :: rest => if tok ≠ "*" then some tok else firstNonWildcard rest

/-- Apply one option line to the current host block
(src/config.rs:148-172).  `HashMap::insert` on `custom_options` is
modelled as replace-then-append on the association list. -/
def applyOptionLine (line : String) (h : SshHost) : SshHost :=
  if line.startsWith "HostName " then { h with hostname := some ((line.drop 9).trim) }
  else if line.startsWith "User " then { h with user := some ((line.drop 5).trim) }
  else if line.startsWith "Port " then { h with port := some ((line.drop 5).trim) }
  else if line.startsWith "ProxyCommand " then
    { h with proxy_command := some ((line.drop 13).trim) }
  else if line.startsWith "IdentityFile " then
    { h with identity_file := some ((line.drop 13).trim) }
  else if line.startsWith "ConnectTimeout " then
    { h with connect_timeout := some ((line.drop 15).trim) }
  else if line.startsWith "ServerAliveInterval " then
    { h with server_alive_interval := some ((line.drop 20).trim) }
  else
    let p := line.posOf ' '
    if p = line.endPos then h
    else
      let key := (line.extract 0 p).trim
      let value := (line.extract (line.next p) line.endPos).trim
      if key ≠ "" ∧ value ≠ "" then
        { h with custom_options :=
            (h.custom_options.filter (fun kv => kv.1 ≠ key)) ++ [(key, value)] }
      else h

/-- `SshHost::new` (src/models.rs:82). -/
def SshHost.new (host : String) : SshHost := { host := host }

/-- One line of `ConfigManager::parse_ssh_config` (src/config.rs:132-174)
acting on the accumulated `(hosts, current)` state. -/
def parseConfigLine (acc : List SshHost × Option SshHost) (rawLine : String) :
    List SshHost × Option SshHost :=
  let hosts := acc.1
  let line := rawLine.trim
  if line.startsWith "Host " ∧ ¬line.startsWith "HostName" then
    let hosts :=
      match acc.2 with
      | some h => hosts ++ [h]
      | none => hosts
    let tokens := ((line.drop 5).split (fun c => c.isWhitespace)).filter (fun tk => tk ≠ "")
    match firstNonWildcard tokens with
    | some name => (hosts, some (SshHost.new name))
    | none => (hosts, none)
  else
    match acc.2 with
    | some h => (hosts, some (applyOptionLine line h))
    | none => (hosts, none)

/-- `ConfigManager::parse_ssh_config` (src/config.rs:119) on the list of
lines of the config file. -/
def parseSshConfig (lines : List String) : List SshHost :=
  let acc := lines.foldl parseConfigLine ([], none)
  match acc.2 with
  | some h => acc.1 ++ [h]
  | none => acc.1

/-- Well-formed host lists: every profile has a non-empty identifier.
`parse_ssh_config` only produces such lists (`parseSshConfig_wf`), and
`search_hosts` filters one of them, so every list the storage collaborator
hands the router is well-formed. -/
def WFHosts (hosts : List SshHost) : Prop :=
  ∀ h ∈ hosts, h.host ≠ ""

/-- A storage environment whose host lists are well-formed, as the real
`ConfigManager` guarantees (its lists all come from `parse_ssh_config`,
directly or through the `search_hosts` filter). -/
structure EnvWF (env : StorageEnv) : Prop where
  get_wf : WFHosts env.get_hosts
  search_wf : ∀ q, WFHosts (env.search_results q)

/-- The states the event router can reach: the `start_tui` entry state for
any non-empty well-formed host list, closed under loop iterations with
well-formed collaborator responses. -/
inductive Reachable : LoopState → Prop
  | init (hosts : List SshHost) (hne : hosts ≠ []) (hwf : WFHosts hosts) :
      Reachable (initLoopState hosts)
  | step (env : StorageEnv) (key : Option KeyCode) (s s' : LoopState)
      (hwf : EnvWF env) (hr : Reachable s)
      (hstep : iterStep env key s = some (s', false)) : Reachable s'

/-- Recovery actions of the render-failure handling in `main_event_loop`
(src/ui.rs:162-193). -/
inductive LoopAction
  | emergencyRecovery
  | reinitEvents
  | backoff
  deriving DecidableEq, Repr

/-- Outcome of one `main_event_loop` iteration as far as the render-error
counter is concerned: the recovery actions performed and `some newCount`
when the loop continues, `none` when it exits with the render error. -/
structure RenderStepOut where
  actions : List LoopAction
  next : Option Nat
  deriving DecidableEq, Repr

/-- `MAX_ERRORS` (src/ui.rs:160). -/
def MAX_ERRORS : Nat := 5

/-- The render/recovery logic of one `main_event_loop` iteration
(src/ui.rs:162-193): a successful render resets the counter to 0 (after
the event step); a failed render increments it, performs emergency
recovery, and either exits with the error (counter at the threshold) or
also reinitialises events, backs off 100ms and continues. -/
def loopIter (renderOk : Bool) (errorCount : Nat) : RenderStepOut :=
  if renderOk then { actions := [], next := some 0 }
  else
    let c := errorCount + 1
    if MAX_ERRORS ≤ c then { actions := [.emergencyRecovery], next := none }
    else { actions := [.emergencyRecovery, .reinitEvents, .backoff], next := some c }

/-- Iterate `loopIter` over `n` consecutive render failures starting from
counter value `c`: `some c'` when the loop is still running, `none` when
it has exited. -/
def failStreak : Nat → Nat → Option Nat
  | 0, c => some c
  | n + 1, c =>
    match (loopIter false c).next with
    | some c' => failStreak n c'
    | none => none

/-- Amended overlay invariant: at most one of the four non-error overlays
is active, and the error dialog is never active together with the Search,
DeleteConfirm or HostKeyConfirm overlays (it can coexist with the Form,
which stays open under a validation or save error). -/
def OverlayInv (u : UiState) : Prop :=
  (u.search.show_popup = true →
     u.delete_confirm.shown = false ∧ u.form.show_add = false ∧
     u.form.show_edit = false ∧ u.host_key_confirm.shown = false) ∧
  (u.delete_confirm.shown = true →
     u.form.show_add = false ∧ u.form.show_edit = false ∧
     u.host_key_confirm.shown = false) ∧
  ((u.form.show_add = true ∨ u.form.show_edit = true) →
     u.host_key_confirm.shown = false) ∧
  (u.error_modal.shown = true →
     u.search.show_popup = false ∧ u.delete_confirm.shown = false ∧
     u.host_key_confirm.shown = false)

/-- Selection invariant: a non-empty displayed list keeps the selected
index in bounds and mirrored in the table state; an empty list keeps the
table selection cleared. -/
def SelInv (s : LoopState) : Prop :=
  (s.hosts ≠ [] → s.selected < s.hosts.length ∧ s.table_sel = some s.selected) ∧
  (s.hosts = [] → s.table_sel = none)

/-- An open form always has exactly the 7 fields built by `show_add_form`
or `show_edit_form`. -/
def FormInv (u : UiState) : Prop :=
  (u.form.show_add = true ∨ u.form.show_edit = true) → u.form.fields.length = 7

/-- In edit mode the read-only host-identifier field is non-empty and is
never in editing state while focused. -/
def EditInv (u : UiState) : Prop :=
  u.form.show_edit = true →
    (∀ f0, u.form.fields.get? 0 = some f0 → f0.value ≠ "") ∧
    (u.form.focus_index = 0 → u.form.editing_field = false)

/-- An open delete-confirmation dialog always has a target host. -/
def DeleteInv (u : UiState) : Prop :=
  u.delete_confirm.shown = true → u.delete_confirm.host.isSome = true

/-- The combined inductive invariant of the event router. -/
def Inv (s : LoopState) : Prop :=
  OverlayInv s.ui ∧ SelInv s ∧ FormInv s.ui ∧ EditInv s.ui ∧ DeleteInv s.ui ∧
    WFHosts s.hosts

lemma setHostStatus_length (hosts : List SshHost) (i : Nat) (st : ConnectionStatus) :
    (setHostStatus hosts i st).length = hosts.length := by
  unfold setHostStatus
  cases h : hosts.get? i <;> simp

lemma WFHosts_setHostStatus {hosts : List SshHost} (i : Nat) (st : ConnectionStatus)
    (hwf : WFHosts hosts) : WFHosts (setHostStatus hosts i st) := by
  unfold setHostStatus
  cases h : hosts.get? i with
  | none => exact hwf
  | some x =>
    intro a ha
    rcases List.mem_or_eq_of_mem_set ha with h1 | h1
    · exact hwf a h1
    · subst h1
      exact hwf x (List.get?_mem h)

lemma mergePass_length (pending : List (Nat × Option ConnectionStatus)) (i : Nat)
    (hosts : List SshHost) : (mergePass pending i hosts).1.length = hosts.length := by
  induction pending generalizing i hosts with
  | nil => simp [mergePass]
  | cons e rest ih =>
    obtain ⟨host_index, statusOpt⟩ := e
    cases statusOpt with
    | none => simpa [mergePass] using ih (i + 1) hosts
    | some st =>
      by_cases hlt : host_index < hosts.length
      · simp only [mergePass, if_pos hlt]
        rw [ih (i + 1) (setHostStatus hosts host_index st)]
        exact setHostStatus_length hosts host_index st
      · simpa [mergePass, if_neg hlt] using ih (i + 1) hosts

lemma WFHosts_mergePass (pending : List (Nat × Option ConnectionStatus)) (i : Nat)
    {hosts : List SshHost} (hwf : WFHosts hosts) :
    WFHosts (mergePass pending i hosts).1 := by
  induction pending generalizing i hosts with
  | nil => simpa [mergePass] using hwf
  | cons e rest ih =>
    obtain ⟨host_index, statusOpt⟩ := e
    cases statusOpt with
    | none => simpa [mergePass] using ih (i + 1) hwf
    | some st =>
      by_cases hlt : host_index < hosts.length
      · simp only [mergePass, if_pos hlt]
        exact ih (i + 1) (WFHosts_setHostStatus host_index st hwf)
      · simpa [mergePass, if_neg hlt] using ih (i + 1) hwf

lemma updateConnectionTestResults_length (hosts : List SshHost)
    (pending : List (Nat × Option ConnectionStatus)) :
    (updateConnectionTestResults hosts pending).1.length = hosts.length :=
  mergePass_length pending 0 hosts

lemma WFHosts_updateConnectionTestResults {hosts : List SshHost}
    (pending : List (Nat × Option ConnectionStatus)) (hwf : WFHosts hosts) :
    WFHosts (updateConnectionTestResults hosts pending).1 :=
  WFHosts_mergePass pending 0 hwf

lemma WFHosts_map_status (hosts : List SshHost) (hwf : WFHosts hosts) :
    WFHosts (hosts.map (fun h => { h with connection_status := .Connecting })) := by
  intro a ha
  rcases List.mem_map.1 ha with ⟨b, hb, rfl⟩
  exact hwf b hb

lemma overlayInv_of_eq {u u' : UiState}
    (h1 : u'.search.show_popup = u.search.show_popup)
    (h2 : u'.delete_confirm.shown = u.delete_confirm.shown)
    (h3 : u'.form.show_add = u.form.show_add)
    (h4 : u'.form.show_edit = u.form.show_edit)
    (h5 : u'.host_key_confirm.shown = u.host_key_confirm.shown)
    (h6 : u'.error_modal.shown = u.error_modal.shown)
    (ho : OverlayInv u) : OverlayInv u' := by
  unfold OverlayInv at *
  rw [h1, h2, h3, h4, h5, h6]
  exact ho

lemma formInv_of_eq {u u' : UiState}
    (h3 : u'.form.show_add = u.form.show_add)
    (h4 : u'.form.show_edit = u.form.show_edit)
    (h5 : u'.form.fields.length = u.form.fields.length)
    (hf : FormInv u) : FormInv u' := by
  unfold FormInv at *
  rw [h3, h4, h5]
  exact hf

lemma editInv_of_eq {u u' : UiState}
    (h4 : u'.form.show_edit = u.form.show_edit)
    (hf : u'.form.fields.get? 0 = u.form.fields.get? 0)
    (hfoc : u'.form.focus_index = u.form.focus_index)
    (hed : u'.form.editing_field = u.form.editing_field)
    (he : EditInv u) : EditInv u' := by
  unfold EditInv at *
  rw [h4, hf, hfoc, hed]
  exact he

lemma deleteInv_of_eq {u u' : UiState}
    (h1 : u'.delete_confirm.shown = u.delete_confirm.shown)
    (h2 : u'.delete_confirm.host = u.delete_confirm.host)
    (hd : DeleteInv u) : DeleteInv u' := by
  unfold DeleteInv at *
  rw [h1, h2]
  exact hd

lemma selInv_of_eq {s s' : LoopState}
    (hh : s'.hosts = s.hosts) (hsel : s'.selected = s.selected)
    (ht : s'.table_sel = s.table_sel)
    (hs : SelInv s) : SelInv s' := by
  unfold SelInv at *
  rw [hh, hsel, ht]
  exact hs

lemma inv_merge (env : StorageEnv) {s : LoopState} (hinv : Inv s) :
    Inv { s with hosts := (updateConnectionTestResults s.hosts env.pending).1 } := by
  obtain ⟨ho, hsel, hform, hedit, hdel, hwf⟩ := hinv
  have hlen := updateConnectionTestResults_length s.hosts env.pending
  refine ⟨ho, ?_, hform, hedit, hdel, WFHosts_updateConnectionTestResults _ hwf⟩
  constructor
  · intro hne
    have h0 : s.hosts ≠ [] := by
      intro h
      apply hne
      apply List.eq_nil_of_length_eq_zero
      rw [hlen, h]
      rfl
    obtain ⟨h1, h2⟩ := hsel.1 h0
    have h1' : s.selected < (updateConnectionTestResults s.hosts env.pending).1.length := by
      rw [hlen]
      exact h1
    exact ⟨h1', h2⟩
  · intro he
    have he' : (updateConnectionTestResults s.hosts env.pending).1 = [] := he
    apply hsel.2
    apply List.eq_nil_of_length_eq_zero
    rw [← hlen, he']
    rfl

lemma inv_updateSearchResults (env : StorageEnv) {s : LoopState}
    (henv : EnvWF env) (hinv : Inv s) : Inv (updateSearchResults env s) := by
  obtain ⟨ho, hsel, hform, hedit, hdel, hwf⟩ := hinv
  simp only [updateSearchResults]
  split_ifs with h1 h2 h3 <;>
    refine ⟨overlayInv_of_eq rfl rfl rfl rfl rfl rfl ho, ⟨?_, ?_⟩,
            formInv_of_eq rfl rfl rfl hform,
            editInv_of_eq rfl rfl rfl rfl hedit,
            deleteInv_of_eq rfl rfl hdel, ?_⟩
  · intro hne
    exact absurd h2 hne
  · intro _
    rfl
  · exact henv.get_wf
  · intro _
    exact ⟨List.length_pos.2 h2, rfl⟩
  · intro he
    exact absurd he h2
  · exact henv.get_wf
  · intro hne
    exact absurd h3 hne
  · intro _
    rfl
  · exact henv.search_wf _
  · intro _
    exact ⟨List.length_pos.2 h3, rfl⟩
  · intro he
    exact absurd he h3
  · exact henv.search_wf _

lemma flagOff {a b : Bool} (h : a = true → b = true) (hb : b = false) : a = false := by
  cases ha : a
  · rfl
  · rw [h ha] at hb
    exact Bool.noConfusion hb

lemma overlayInv_mono {u u' : UiState}
    (h1 : u'.search.show_popup = true → u.search.show_popup = true)
    (h2 : u'.delete_confirm.shown = true → u.delete_confirm.shown = true)
    (h3 : u'.form.show_add = true → u.form.show_add = true)
    (h4 : u'.form.show_edit = true → u.form.show_edit = true)
    (h5 : u'.host_key_confirm.shown = true → u.host_key_confirm.shown = true)
    (h6 : u'.error_modal.shown = true → u.error_modal.shown = true)
    (ho : OverlayInv u) : OverlayInv u' := by
  obtain ⟨o1, o2, o3, o4⟩ := ho
  refine ⟨?_, ?_, ?_, ?_⟩
  · intro hp
    obtain ⟨a, b, c, d⟩ := o1 (h1 hp)
    exact ⟨flagOff h2 a, flagOff h3 b, flagOff h4 c, flagOff h5 d⟩
  · intro hp
    obtain ⟨b, c, d⟩ := o2 (h2 hp)
    exact ⟨flagOff h3 b, flagOff h4 c, flagOff h5 d⟩
  · intro hp
    rcases hp with hp | hp
    · exact flagOff h5 (o3 (Or.inl (h3 hp)))
    · exact flagOff h5 (o3 (Or.inr (h4 hp)))
  · intro hp
    obtain ⟨a, b, d⟩ := o4 (h6 hp)
    exact ⟨flagOff h1 a, flagOff h2 b, flagOff h5 d⟩

lemma inv_handleSearchEvent (env : StorageEnv) (key : KeyCode) {s : LoopState}
    (henv : EnvWF env) (hinv : Inv s) : Inv (handleSearchEvent env key s) := by
  obtain ⟨ho, hsel, hform, hedit, hdel, hwf⟩ := hinv
  cases key with
  | enter =>
    simp only [handleSearchEvent]
    split_ifs with h1 h2 h3 <;>
      refine ⟨overlayInv_mono (u := s.ui) (fun hp => nomatch hp) (fun h => h) (fun h => h)
                (fun h => h) (fun h => h) (fun h => h) ho, ⟨?_, ?_⟩,
              formInv_of_eq rfl rfl rfl hform,
              editInv_of_eq rfl rfl rfl rfl hedit,
              deleteInv_of_eq rfl rfl hdel, ?_⟩
    · intro hne
      exact absurd h2 hne
    · intro _
      rfl
    · exact henv.get_wf
    · intro _
      exact ⟨List.length_pos.2 h2, rfl⟩
    · intro he
      exact absurd he h2
    · exact henv.get_wf
    · intro hne
      exact absurd h3 hne
    · intro _
      rfl
    · exact henv.search_wf _
    · intro _
      exact ⟨List.length_pos.2 h3, rfl⟩
    · intro he
      exact absurd he h3
    · exact henv.search_wf _
  | esc =>
    simp only [handleSearchEvent]
    exact ⟨overlayInv_mono (u := s.ui) (fun hp => nomatch hp) (fun h => h) (fun h => h)
             (fun h => h) (fun h => h) (fun h => h) ho,
           selInv_of_eq rfl rfl rfl hsel, formInv_of_eq rfl rfl rfl hform,
           editInv_of_eq rfl rfl rfl rfl hedit, deleteInv_of_eq rfl rfl hdel, hwf⟩
  | char c =>
    simp only [handleSearchEvent]
    exact inv_updateSearchResults env henv
      ⟨overlayInv_of_eq rfl rfl rfl rfl rfl rfl ho, selInv_of_eq rfl rfl rfl hsel,
       formInv_of_eq rfl rfl rfl hform, editInv_of_eq rfl rfl rfl rfl hedit,
       deleteInv_of_eq rfl rfl hdel, hwf⟩
  | backspace =>
    simp only [handleSearchEvent]
    exact inv_updateSearchResults env henv
      ⟨overlayInv_of_eq rfl rfl rfl rfl rfl rfl ho, selInv_of_eq rfl rfl rfl hsel,
       formInv_of_eq rfl rfl rfl hform, editInv_of_eq rfl rfl rfl rfl hedit,
       deleteInv_of_eq rfl rfl hdel, hwf⟩
  | tab => exact ⟨ho, hsel, hform, hedit, hdel, hwf⟩
  | down => exact ⟨ho, hsel, hform, hedit, hdel, hwf⟩
  | up => exact ⟨ho, hsel, hform, hedit, hdel, hwf⟩
  | left => exact ⟨ho, hsel, hform, hedit, hdel, hwf⟩
  | right => exact ⟨ho, hsel, hform, hedit, hdel, hwf⟩
  | other => exact ⟨ho, hsel, hform, hedit, hdel, hwf⟩

lemma inv_reloadHosts (env : StorageEnv) {s : LoopState} (henv : EnvWF env)
    (hinv : Inv s) : Inv (reloadHosts env s) := by
  obtain ⟨ho, hsel, hform, hedit, hdel, hwf⟩ := hinv
  simp only [reloadHosts]
  refine ⟨overlayInv_of_eq rfl rfl rfl rfl rfl rfl ho, ⟨?_, ?_⟩,
          formInv_of_eq rfl rfl rfl hform, editInv_of_eq rfl rfl rfl rfl hedit,
          deleteInv_of_eq rfl rfl hdel, henv.get_wf⟩
  · intro hne
    have hne' : env.get_hosts ≠ [] := hne
    have hlt : (if env.get_hosts.length ≤ s.selected ∧ env.get_hosts ≠ [] then
        env.get_hosts.length - 1 else s.selected) < env.get_hosts.length := by
      split_ifs with h
      · exact Nat.sub_lt (List.length_pos.2 hne') Nat.one_pos
      · rcases not_and_or.1 h with h' | h'
        · exact Nat.lt_of_not_le h'
        · exact absurd hne' h'
    exact ⟨hlt, if_pos hne'⟩
  · intro he
    have he' : env.get_hosts = [] := he
    exact if_neg (not_not_intro he')

lemma inv_handleDeleteConfirmEvent (env : StorageEnv) (key : KeyCode) {s : LoopState}
    (henv : EnvWF env) (hinv : Inv s) : Inv (handleDeleteConfirmEvent env key s).1 := by
  obtain ⟨ho, hsel, hform, hedit, hdel, hwf⟩ := hinv
  cases key with
  | enter =>
    simp only [handleDeleteConfirmEvent]
    split_ifs with h1
    · cases hh : s.ui.delete_confirm.host with
      | some h =>
        simp only [hh]
        exact inv_reloadHosts env henv
          ⟨overlayInv_mono (u := s.ui) (fun h => h) (fun hp => nomatch hp) (fun h => h)
             (fun h => h) (fun h => h) (fun h => h) ho,
           selInv_of_eq rfl rfl rfl hsel, formInv_of_eq rfl rfl rfl hform,
           editInv_of_eq rfl rfl rfl rfl hedit,
           (show DeleteInv (resetDeleteConfirm s.ui) from fun hp => nomatch hp), hwf⟩
      | none =>
        simp only [hh]
        exact ⟨ho, hsel, hform, hedit, hdel, hwf⟩
    · exact ⟨ho, hsel, hform, hedit, hdel, hwf⟩
  | esc =>
    simp only [handleDeleteConfirmEvent]
    exact ⟨overlayInv_mono (u := s.ui) (fun h => h) (fun hp => nomatch hp) (fun h => h)
             (fun h => h) (fun h => h) (fun h => h) ho,
           selInv_of_eq rfl rfl rfl hsel, formInv_of_eq rfl rfl rfl hform,
           editInv_of_eq rfl rfl rfl rfl hedit,
           (show DeleteInv (resetDeleteConfirm s.ui) from fun hp => nomatch hp), hwf⟩
  | char c =>
    simp only [handleDeleteConfirmEvent]
    exact ⟨overlayInv_of_eq rfl rfl rfl rfl rfl rfl ho, selInv_of_eq rfl rfl rfl hsel,
           formInv_of_eq rfl rfl rfl hform, editInv_of_eq rfl rfl rfl rfl hedit,
           deleteInv_of_eq rfl rfl hdel, hwf⟩
  | backspace =>
    simp only [handleDeleteConfirmEvent]
    exact ⟨overlayInv_of_eq rfl rfl rfl rfl rfl rfl ho, selInv_of_eq rfl rfl rfl hsel,
           formInv_of_eq rfl rfl rfl hform, editInv_of_eq rfl rfl rfl rfl hedit,
           deleteInv_of_eq rfl rfl hdel, hwf⟩
  | tab => exact ⟨ho, hsel, hform, hedit, hdel, hwf⟩
  | down => exact ⟨ho, hsel, hform, hedit, hdel, hwf⟩
  | up => exact ⟨ho, hsel, hform, hedit, hdel, hwf⟩
  | left => exact ⟨ho, hsel, hform, hedit, hdel, hwf⟩
  | right => exact ⟨ho, hsel, hform, hedit, hdel, hwf⟩
  | other => exact ⟨ho, hsel, hform, hedit, hdel, hwf⟩

lemma setFieldValue_length (fields : List FormField) (i : Nat) (g : String → String) :
    (setFieldValue fields i g).length = fields.length := by
  unfold setFieldValue
  cases h : fields.get? i <;> simp

lemma setFieldValue_get?_ne (fields : List FormField) {i : Nat} (j : Nat)
    (h : i ≠ j) (g : String → String) :
    (setFieldValue fields i g).get? j = fields.get? j := by
  unfold setFieldValue
  cases hh : fields.get? i
  · rfl
  · exact List.get?_set_ne _ _ h

lemma exists_len7 {α : Type} {l : List α} (h : l.length = 7) :
    ∃ a b c d e f g, l = [a, b, c, d, e, f, g] := by
  rcases l with _ | ⟨a, _ | ⟨b, _ | ⟨c, _ | ⟨d, _ | ⟨e, _ | ⟨f, _ | ⟨g, _ | ⟨x, r⟩⟩⟩⟩⟩⟩⟩⟩
  · simp at h
  · simp at h
  · simp at h
  · simp at h
  · simp at h
  · simp at h
  · simp at h
  · exact ⟨a, b, c, d, e, f, g, rfl⟩
  · simp at h

lemma overlay_form_active {u : UiState} (ho : OverlayInv u)
    (hfs : u.form.show_add = true ∨ u.form.show_edit = true) :
    u.search.show_popup = false ∧ u.delete_confirm.shown = false ∧
      u.host_key_confirm.shown = false := by
  obtain ⟨o1, o2, o3, _⟩ := ho
  refine ⟨?_, ?_, o3 hfs⟩
  · cases hp : u.search.show_popup
    · rfl
    · rcases hfs with hf | hf
      · rw [(o1 hp).2.1] at hf
        exact Bool.noConfusion hf
      · rw [(o1 hp).2.2.1] at hf
        exact Bool.noConfusion hf
  · cases hp : u.delete_confirm.shown
    · rfl
    · rcases hfs with hf | hf
      · rw [(o2 hp).1] at hf
        exact Bool.noConfusion hf
      · rw [(o2 hp).2.1] at hf
        exact Bool.noConfusion hf

lemma overlayInv_form_error {u u' : UiState} (ho : OverlayInv u)
    (hfs : u.form.show_add = true ∨ u.form.show_edit = true)
    (h1 : u'.search.show_popup = u.search.show_popup)
    (h2 : u'.delete_confirm.shown = u.delete_confirm.shown)
    (h3 : u'.form.show_add = u.form.show_add)
    (h4 : u'.form.show_edit = u.form.show_edit)
    (h5 : u'.host_key_confirm.shown = u.host_key_confirm.shown) :
    OverlayInv u' := by
  obtain ⟨hs, hd, hk⟩ := overlay_form_active ho hfs
  obtain ⟨o1, o2, o3, o4⟩ := ho
  unfold OverlayInv
  rw [h1, h2, h3, h4, h5]
  exact ⟨fun hp => o1 hp, fun hp => o2 hp, fun hp => o3 hp, fun _ => ⟨hs, hd, hk⟩⟩

lemma formInv_closed {u : UiState} (ha : u.form.show_add = false)
    (he : u.form.show_edit = false) : FormInv u := by
  intro hp
  rcases hp with hp | hp
  · rw [ha] at hp
    exact Bool.noConfusion hp
  · rw [he] at hp
    exact Bool.noConfusion hp

lemma editInv_closed {u : UiState} (he : u.form.show_edit = false) : EditInv u := by
  intro hp
  rw [he] at hp
  exact Bool.noConfusion hp

lemma saveFormData_isSome (env : StorageEnv) {s : LoopState}
    (hlen : s.ui.form.fields.length = 7) : (saveFormData env s).isSome = true := by
  obtain ⟨a, b, c, d, e, f, g, hfl⟩ := exists_len7 hlen
  by_cases ha : a.value = ""
  · simp [saveFormData, hfl, ha]
  · by_cases hb : b.value = ""
    · simp [saveFormData, hfl, ha, hb]
    · rcases hv : validateFormPort d.value with msg | port
      · simp [saveFormData, hfl, ha, hb, hv]
      · cases hsave : env.save_result <;> simp [saveFormData, hfl, ha, hb, hv, hsave]

lemma selInv_reload (u : UiState) (hosts : List SshHost) (sel : Nat)
    (h : hosts ≠ [] → sel < hosts.length) :
    SelInv { ui := u, hosts := hosts, selected := sel,
             table_sel := if hosts = [] then none else some sel } := by
  constructor
  · intro hne
    have hne' : hosts ≠ [] := hne
    refine ⟨h hne', ?_⟩
    show (if hosts = [] then none else some sel) = some sel
    rw [if_neg hne']
  · intro he
    have he' : hosts = [] := he
    show (if hosts = [] then none else some sel) = none
    rw [if_pos he']

lemma inv_saveFormData (env : StorageEnv) {s : LoopState}
    (henv : EnvWF env) (hinv : Inv s)
    (hfs : s.ui.form.show_add = true ∨ s.ui.form.show_edit = true) :
    ∀ r, saveFormData env s = some r →
      r.1.ui.form.fields = s.ui.form.fields ∧
      (r.2.1 = true → Inv { r.1 with ui := resetForm r.1.ui }) ∧
      (r.2.1 = false → Inv r.1) := by
  obtain ⟨ho, hsel, hform, hedit, hdel, hwf⟩ := hinv
  obtain ⟨a, b, c, d, e, f, g, hfl⟩ := exists_len7 (hform hfs)
  intro r hr
  by_cases ha : a.value = ""
  · simp [saveFormData, hfl, ha] at hr
    subst hr
    refine ⟨rfl, fun hp => Bool.noConfusion hp, fun _ => ?_⟩
    refine ⟨overlayInv_form_error ho hfs rfl rfl rfl rfl rfl,
            selInv_of_eq rfl rfl rfl hsel, formInv_of_eq rfl rfl rfl hform,
            ?_, deleteInv_of_eq rfl rfl hdel, hwf⟩
    intro hse
    exact absurd ha ((hedit hse).1 a (by rw [hfl]; rfl))
  · by_cases hb : b.value = ""
    · simp [saveFormData, hfl, ha, hb] at hr
      subst hr
      refine ⟨rfl, fun hp => Bool.noConfusion hp, fun _ => ?_⟩
      refine ⟨overlayInv_form_error ho hfs rfl rfl rfl rfl rfl,
              selInv_of_eq rfl rfl rfl hsel, formInv_of_eq rfl rfl rfl hform,
              ?_, deleteInv_of_eq rfl rfl hdel, hwf⟩
      intro hse
      exact ⟨fun f0 h0 => (hedit hse).1 f0 h0, fun hfoc => absurd hfoc one_ne_zero⟩
    · rcases hv : validateFormPort d.value with msg | port
      · simp [saveFormData, hfl, ha, hb, hv] at hr
        subst hr
        refine ⟨rfl, fun hp => Bool.noConfusion hp, fun _ => ?_⟩
        refine ⟨overlayInv_form_error ho hfs rfl rfl rfl rfl rfl,
                selInv_of_eq rfl rfl rfl hsel, formInv_of_eq rfl rfl rfl hform,
                ?_, deleteInv_of_eq rfl rfl hdel, hwf⟩
        intro hse
        exact ⟨fun f0 h0 => (hedit hse).1 f0 h0,
               fun hfoc => absurd hfoc (Nat.succ_ne_zero 2)⟩
      · cases hsave : env.save_result with
        | some e2 =>
          simp [saveFormData, hfl, ha, hb, hv, hsave] at hr
          subst hr
          refine ⟨rfl, fun hp => Bool.noConfusion hp, fun _ => ?_⟩
          exact ⟨overlayInv_form_error ho hfs rfl rfl rfl rfl rfl,
                 selInv_of_eq rfl rfl rfl hsel, formInv_of_eq rfl rfl rfl hform,
                 editInv_of_eq rfl rfl rfl rfl hedit,
                 deleteInv_of_eq rfl rfl hdel, hwf⟩
        | none =>
          simp [saveFormData, hfl, ha, hb, hv, hsave] at hr
          subst hr
          refine ⟨rfl, fun _ => ?_, fun hp => Bool.noConfusion hp⟩
          refine ⟨overlayInv_mono (u := s.ui) (fun h => h) (fun h => h)
                    (fun hp => Bool.noConfusion hp) (fun hp => Bool.noConfusion hp)
                    (fun h => h) (fun h => h) ho,
                  selInv_reload _ _ _ ?_, formInv_closed rfl rfl, editInv_closed rfl,
                  deleteInv_of_eq rfl rfl hdel, henv.get_wf⟩
          intro hne
          have h0 : 0 < env.get_hosts.length := List.length_pos.2 hne
          show (if s.ui.form.show_add = true then 0
              else if env.get_hosts.length ≤ s.selected ∧ ¬env.get_hosts = [] then
                env.get_hosts.length - 1
              else s.selected) < env.get_hosts.length
          split_ifs with h1 h2
          · exact h0
          · omega
          · rcases not_and_or.1 h2 with h' | h'
            · exact Nat.lt_of_not_le h'
            · exact absurd (not_not.1 h') hne

lemma bool_eq_false {b : Bool} (h : ¬(b = true)) : b = false := by
  cases b
  · rfl
  · exact absurd rfl h

lemma inv_resetForm {s : LoopState} (ho : OverlayInv s.ui) (hsel : SelInv s)
    (hdel : DeleteInv s.ui) (hwf : WFHosts s.hosts) :
    Inv { s with ui := resetForm s.ui } :=
  ⟨overlayInv_mono (u := s.ui) (fun h => h) (fun h => h) (fun hp => Bool.noConfusion hp)
     (fun hp => Bool.noConfusion hp) (fun h => h) (fun h => h) ho,
   selInv_of_eq rfl rfl rfl hsel, formInv_closed rfl rfl, editInv_closed rfl,
   deleteInv_of_eq rfl rfl hdel, hwf⟩

lemma focusDownNext_ne_zero {f n : Nat} (se : Bool) (hn : n = 7) (hse : se = true) :
    (if se = true ∧ (f + 1) % n = 0 ∧ 1 < n then (f + 1 + 1) % n
     else (f + 1) % n) ≠ 0 := by
  subst hn
  by_cases h : (f + 1) % 7 = 0
  · rw [if_pos ⟨hse, h, by decide⟩]
    omega
  · rw [if_neg (fun hc => h hc.2.1)]
    exact h

lemma focusUpPrev_ne_zero {f n : Nat} (se : Bool) (hn : n = 7) (hse : se = true) :
    (if se = true ∧ (if f = 0 then n - 1 else f - 1) = 0 ∧ 1 < n then
       if (if f = 0 then n - 1 else f - 1) = 0 then n - 1
       else (if f = 0 then n - 1 else f - 1) - 1
     else if f = 0 then n - 1 else f - 1) ≠ 0 := by
  subst hn
  by_cases hf : f = 0
  · simp [hf]
  · by_cases hf1 : f - 1 = 0
    · simp [hf, hf1, hse]
    · simp [hf, hf1]

lemma handleFormEnter_pres (u : UiState) :
    (handleFormEnter u).search = u.search ∧
    (handleFormEnter u).delete_confirm = u.delete_confirm ∧
    (handleFormEnter u).error_modal = u.error_modal ∧
    (handleFormEnter u).host_key_confirm = u.host_key_confirm ∧
    (handleFormEnter u).form.show_add = u.form.show_add ∧
    (handleFormEnter u).form.show_edit = u.form.show_edit ∧
    (handleFormEnter u).form.fields = u.form.fields := by
  simp only [handleFormEnter]
  split_ifs <;> exact ⟨rfl, rfl, rfl, rfl, rfl, rfl, rfl⟩

lemma handleFormEnter_editInv {u : UiState} (hedit : EditInv u) :
    EditInv (handleFormEnter u) := by
  intro hse
  have hseu : u.form.show_edit = true := by
    rw [← (handleFormEnter_pres u).2.2.2.2.2.1]
    exact hse
  refine ⟨?_, ?_⟩
  · intro f0 h0
    apply (hedit hseu).1 f0
    rw [← (handleFormEnter_pres u).2.2.2.2.2.2]
    exact h0
  · simp only [handleFormEnter]
    split_ifs <;> intro hfoc <;>
      first
        | rfl
        | exact absurd hfoc (Nat.succ_ne_zero _)
        | exact (hedit hseu).2 hfoc
        | tauto

lemma inv_handleFormEvent (env : StorageEnv) (key : KeyCode) {s : LoopState}
    (henv : EnvWF env) (hinv : Inv s)
    (hfs : s.ui.form.show_add = true ∨ s.ui.form.show_edit = true) :
    ∀ r, handleFormEvent env key s = some r → Inv r.1 := by
  obtain ⟨ho, hsel, hform, hedit, hdel, hwf⟩ := hinv
  have hlen : s.ui.form.fields.length = 7 := hform hfs
  have hne : s.ui.form.fields ≠ [] := by
    intro h
    rw [h] at hlen
    exact absurd hlen (by decide)
  intro r hr
  cases key with
  | esc =>
    by_cases hed : s.ui.form.editing_field = true
    · simp [handleFormEvent, hed] at hr
      subst hr
      exact ⟨overlayInv_of_eq rfl rfl rfl rfl rfl rfl ho, selInv_of_eq rfl rfl rfl hsel,
             formInv_of_eq rfl rfl rfl hform,
             fun hse => ⟨(hedit hse).1, fun _ => rfl⟩,
             deleteInv_of_eq rfl rfl hdel, hwf⟩
    · simp [handleFormEvent, hed] at hr
      subst hr
      exact inv_resetForm ho hsel hdel hwf
  | tab =>
    by_cases hed : s.ui.form.editing_field = true
    · simp [handleFormEvent, hed] at hr
      subst hr
      exact ⟨ho, hsel, hform, hedit, hdel, hwf⟩
    · simp [handleFormEvent, hed, moveFormFocusDown, if_neg hne] at hr
      subst hr
      exact ⟨overlayInv_of_eq rfl rfl rfl rfl rfl rfl ho, selInv_of_eq rfl rfl rfl hsel,
             formInv_of_eq rfl rfl rfl hform,
             fun hse => ⟨(hedit hse).1,
               fun hfoc => absurd hfoc (focusDownNext_ne_zero _ hlen hse)⟩,
             deleteInv_of_eq rfl rfl hdel, hwf⟩
  | down =>
    by_cases hed : s.ui.form.editing_field = true
    · simp [handleFormEvent, hed] at hr
      subst hr
      exact ⟨ho, hsel, hform, hedit, hdel, hwf⟩
    · simp [handleFormEvent, hed, moveFormFocusDown, if_neg hne] at hr
      subst hr
      exact ⟨overlayInv_of_eq rfl rfl rfl rfl rfl rfl ho, selInv_of_eq rfl rfl rfl hsel,
             formInv_of_eq rfl rfl rfl hform,
             fun hse => ⟨(hedit hse).1,
               fun hfoc => absurd hfoc (focusDownNext_ne_zero _ hlen hse)⟩,
             deleteInv_of_eq rfl rfl hdel, hwf⟩
  | up =>
    by_cases hed : s.ui.form.editing_field = true
    · simp [handleFormEvent, hed] at hr
      subst hr
      exact ⟨ho, hsel, hform, hedit, hdel, hwf⟩
    · simp [handleFormEvent, hed, moveFormFocusUp, if_neg hne] at hr
      subst hr
      exact ⟨overlayInv_of_eq rfl rfl rfl rfl rfl rfl ho, selInv_of_eq rfl rfl rfl hsel,
             formInv_of_eq rfl rfl rfl hform,
             fun hse => ⟨(hedit hse).1,
               fun hfoc => absurd hfoc (focusUpPrev_ne_zero _ hlen hse)⟩,
             deleteInv_of_eq rfl rfl hdel, hwf⟩
  | enter =>
    simp [handleFormEvent] at hr
    subst hr
    have hp := handleFormEnter_pres s.ui
    exact ⟨overlayInv_of_eq (congrArg SearchState.show_popup hp.1)
             (congrArg DeleteConfirmState.shown hp.2.1) hp.2.2.2.2.1 hp.2.2.2.2.2.1
             (congrArg HostKeyConfirmState.shown hp.2.2.2.1)
             (congrArg ErrorModalState.shown hp.2.2.1) ho,
           selInv_of_eq rfl rfl rfl hsel,
           formInv_of_eq hp.2.2.2.2.1 hp.2.2.2.2.2.1
             (congrArg List.length hp.2.2.2.2.2.2) hform,
           handleFormEnter_editInv hedit,
           deleteInv_of_eq (congrArg DeleteConfirmState.shown hp.2.1)
             (congrArg DeleteConfirmState.host hp.2.1) hdel, hwf⟩
  | backspace =>
    by_cases hed : s.ui.form.editing_field = true
    · simp [handleFormEvent, hed, handleFormBackspace] at hr
      split at hr
      next hg =>
        subst hr
        refine ⟨overlayInv_of_eq rfl rfl rfl rfl rfl rfl ho, selInv_of_eq rfl rfl rfl hsel,
               formInv_of_eq (u := s.ui) rfl rfl
                 (setFieldValue_length s.ui.form.fields s.ui.form.focus_index
                   (fun v => v.dropRight 1)) hform, ?_,
               deleteInv_of_eq rfl rfl hdel, hwf⟩
        intro hse
        have hfoc0 : s.ui.form.focus_index ≠ 0 := hg.2 hse
        refine ⟨?_, fun hfoc => absurd hfoc hfoc0⟩
        intro f0 h0
        apply (hedit hse).1 f0
        rw [← setFieldValue_get?_ne s.ui.form.fields 0 hfoc0 (fun v => v.dropRight 1)]
        exact h0
      next hg =>
        subst hr
        exact ⟨ho, hsel, hform, hedit, hdel, hwf⟩
    · simp [handleFormEvent, hed] at hr
      subst hr
      exact ⟨ho, hsel, hform, hedit, hdel, hwf⟩
  | char c =>
    by_cases hcq : c = 'q'
    · by_cases hed : s.ui.form.editing_field = true
      · simp [handleFormEvent, hcq, hed, pushCharUnchecked] at hr
        split at hr
        next hfb =>
          subst hr
          refine ⟨overlayInv_of_eq rfl rfl rfl rfl rfl rfl ho, selInv_of_eq rfl rfl rfl hsel,
                 formInv_of_eq (u := s.ui) rfl rfl
                   (setFieldValue_length s.ui.form.fields s.ui.form.focus_index
                     (fun v => v.push 'q')) hform, ?_,
                 deleteInv_of_eq rfl rfl hdel, hwf⟩
          intro hse
          have hfoc0 : s.ui.form.focus_index ≠ 0 := by
            intro h0
            have hef := (hedit hse).2 h0
            rw [hef] at hed
            exact Bool.noConfusion hed
          refine ⟨?_, fun hfoc => absurd hfoc hfoc0⟩
          intro f0 h0
          apply (hedit hse).1 f0
          rw [← setFieldValue_get?_ne s.ui.form.fields 0 hfoc0 (fun v => v.push 'q')]
          exact h0
        next hfb =>
          subst hr
          exact ⟨ho, hsel, hform, hedit, hdel, hwf⟩
      · simp [handleFormEvent, hcq, hed] at hr
        subst hr
        exact inv_resetForm ho hsel hdel hwf
    · by_cases hcs : c = 's'
      · by_cases hed : s.ui.form.editing_field = true
        · simp [handleFormEvent, hcq, hcs, hed, pushCharUnchecked] at hr
          split at hr
          next hfb =>
            subst hr
            refine ⟨overlayInv_of_eq rfl rfl rfl rfl rfl rfl ho, selInv_of_eq rfl rfl rfl hsel,
                   formInv_of_eq (u := s.ui) rfl rfl
                     (setFieldValue_length s.ui.form.fields s.ui.form.focus_index
                       (fun v => v.push 's')) hform, ?_,
                   deleteInv_of_eq rfl rfl hdel, hwf⟩
            intro hse
            have hfoc0 : s.ui.form.focus_index ≠ 0 := by
              intro h0
              have hef := (hedit hse).2 h0
              rw [hef] at hed
              exact Bool.noConfusion hed
            refine ⟨?_, fun hfoc => absurd hfoc hfoc0⟩
            intro f0 h0
            apply (hedit hse).1 f0
            rw [← setFieldValue_get?_ne s.ui.form.fields 0 hfoc0 (fun v => v.push 's')]
            exact h0
          next hfb =>
            subst hr
            exact ⟨ho, hsel, hform, hedit, hdel, hwf⟩
        · obtain ⟨⟨s', saved, req⟩, hsr⟩ :=
            Option.isSome_iff_exists.1 (saveFormData_isSome env hlen)
          have hsfd := inv_saveFormData env henv ⟨ho, hsel, hform, hedit, hdel, hwf⟩ hfs
            (s', saved, req) hsr
          cases saved with
          | true =>
            simp [handleFormEvent, hcq, hcs, hed, hsr] at hr
            subst hr
            exact hsfd.2.1 rfl
          | false =>
            simp [handleFormEvent, hcq, hcs, hed, hsr] at hr
            subst hr
            exact hsfd.2.2 rfl
      · by_cases hed : s.ui.form.editing_field = true
        · simp [handleFormEvent, hcq, hcs, hed, handleFormInput] at hr
          split at hr
          next hg =>
            subst hr
            refine ⟨overlayInv_of_eq rfl rfl rfl rfl rfl rfl ho, selInv_of_eq rfl rfl rfl hsel,
                   formInv_of_eq (u := s.ui) rfl rfl
                     (setFieldValue_length s.ui.form.fields s.ui.form.focus_index
                       (fun v => v.push c)) hform, ?_,
                   deleteInv_of_eq rfl rfl hdel, hwf⟩
            intro hse
            have hfoc0 : s.ui.form.focus_index ≠ 0 := hg.2 hse
            refine ⟨?_, fun hfoc => absurd hfoc hfoc0⟩
            intro f0 h0
            apply (hedit hse).1 f0
            rw [← setFieldValue_get?_ne s.ui.form.fields 0 hfoc0 (fun v => v.push c)]
            exact h0
          next hg =>
            subst hr
            exact ⟨ho, hsel, hform, hedit, hdel, hwf⟩
        · simp [handleFormEvent, hcq, hcs, hed] at hr
          subst hr
          exact ⟨ho, hsel, hform, hedit, hdel, hwf⟩
  | left =>
    simp [handleFormEvent] at hr
    subst hr
    exact ⟨ho, hsel, hform, hedit, hdel, hwf⟩
  | right =>
    simp [handleFormEvent] at hr
    subst hr
    exact ⟨ho, hsel, hform, hedit, hdel, hwf⟩
  | other =>
    simp [handleFormEvent] at hr
    subst hr
    exact ⟨ho, hsel, hform, hedit, hdel, hwf⟩

lemma handleFormEvent_isSome (env : StorageEnv) (key : KeyCode) {s : LoopState}
    (hlen : s.ui.form.fields.length = 7) :
    (handleFormEvent env key s).isSome = true := by
  cases key with
  | esc =>
    simp only [handleFormEvent]
    split_ifs <;> rfl
  | tab =>
    simp only [handleFormEvent]
    split_ifs <;> rfl
  | down =>
    simp only [handleFormEvent]
    split_ifs <;> rfl
  | up =>
    simp only [handleFormEvent]
    split_ifs <;> rfl
  | enter => rfl
  | backspace =>
    simp only [handleFormEvent]
    split_ifs <;> rfl
  | char c =>
    by_cases hcq : c = 'q'
    · by_cases hed : s.ui.form.editing_field = true
      · simp [handleFormEvent, hcq, hed]
      · simp [handleFormEvent, hcq, hed]
    · by_cases hcs : c = 's'
      · by_cases hed : s.ui.form.editing_field = true
        · simp [handleFormEvent, hcq, hcs, hed]
        · obtain ⟨⟨s', saved, req⟩, hsr⟩ :=
            Option.isSome_iff_exists.1 (saveFormData_isSome env hlen)
          cases saved <;> simp [handleFormEvent, hcq, hcs, hed, hsr]
      · by_cases hed : s.ui.form.editing_field = true
        · simp [handleFormEvent, hcq, hcs, hed]
        · simp [handleFormEvent, hcq, hcs, hed]
  | left => rfl
  | right => rfl
  | other => rfl

lemma overlayInv_error_only {u : UiState}
    (h1 : u.search.show_popup = false) (h2 : u.delete_confirm.shown = false)
    (h3 : u.form.show_add = false) (h4 : u.form.show_edit = false)
    (h5 : u.host_key_confirm.shown = false) : OverlayInv u := by
  unfold OverlayInv
  rw [h1, h2, h3, h4, h5]
  exact ⟨fun hp => Bool.noConfusion hp, fun hp => Bool.noConfusion hp,
         fun hp => by rcases hp with hp | hp <;> exact Bool.noConfusion hp,
         fun _ => ⟨rfl, rfl, rfl⟩⟩

lemma overlayInv_hostkey_only {u : UiState}
    (h1 : u.search.show_popup = false) (h2 : u.delete_confirm.shown = false)
    (h3 : u.form.show_add = false) (h4 : u.form.show_edit = false)
    (h6 : u.error_modal.shown = false) : OverlayInv u := by
  unfold OverlayInv
  rw [h1, h2, h3, h4, h6]
  exact ⟨fun hp => Bool.noConfusion hp, fun hp => Bool.noConfusion hp,
         fun hp => by rcases hp with hp | hp <;> exact Bool.noConfusion hp,
         fun hp => Bool.noConfusion hp⟩

lemma overlayInv_form_only {u : UiState}
    (h1 : u.search.show_popup = false) (h2 : u.delete_confirm.shown = false)
    (h5 : u.host_key_confirm.shown = false) (h6 : u.error_modal.shown = false) :
    OverlayInv u := by
  unfold OverlayInv
  rw [h1, h2, h5, h6]
  exact ⟨fun hp => Bool.noConfusion hp, fun hp => Bool.noConfusion hp,
         fun _ => rfl, fun hp => Bool.noConfusion hp⟩

lemma overlayInv_delete_only {u : UiState}
    (h1 : u.search.show_popup = false) (h3 : u.form.show_add = false)
    (h4 : u.form.show_edit = false) (h5 : u.host_key_confirm.shown = false)
    (h6 : u.error_modal.shown = false) : OverlayInv u := by
  unfold OverlayInv
  rw [h1, h3, h4, h5, h6]
  exact ⟨fun hp => Bool.noConfusion hp, fun _ => ⟨rfl, rfl, rfl⟩,
         fun hp => by rcases hp with hp | hp <;> exact Bool.noConfusion hp,
         fun hp => Bool.noConfusion hp⟩

lemma overlayInv_search_only {u : UiState}
    (h2 : u.delete_confirm.shown = false) (h3 : u.form.show_add = false)
    (h4 : u.form.show_edit = false) (h5 : u.host_key_confirm.shown = false)
    (h6 : u.error_modal.shown = false) : OverlayInv u := by
  unfold OverlayInv
  rw [h2, h3, h4, h5, h6]
  exact ⟨fun _ => ⟨rfl, rfl, rfl, rfl⟩, fun hp => Bool.noConfusion hp,
         fun hp => by rcases hp with hp | hp <;> exact Bool.noConfusion hp,
         fun hp => Bool.noConfusion hp⟩

lemma deleteInv_closed {u : UiState} (h : u.delete_confirm.shown = false) :
    DeleteInv u := by
  intro hp
  rw [h] at hp
  exact Bool.noConfusion hp

lemma refreshAfterConnection_ui (env : StorageEnv) (s : LoopState) :
    (refreshAfterConnection env s).ui = resetAllUiState s.ui := by
  rcases hq : s.ui.search.query with _ | q <;>
    simp only [refreshAfterConnection, hq] <;> split_ifs <;> rfl

lemma inv_refreshAfterConnection (env : StorageEnv) {s : LoopState}
    (henv : EnvWF env) (hinv : Inv s) : Inv (refreshAfterConnection env s) := by
  rcases hq : s.ui.search.query with _ | q <;> simp only [refreshAfterConnection, hq] <;>
    split_ifs with h1 h2 <;>
    refine ⟨⟨fun hp => Bool.noConfusion hp, fun hp => Bool.noConfusion hp,
             fun hp => by rcases hp with hp | hp <;> exact Bool.noConfusion hp,
             fun hp => Bool.noConfusion hp⟩,
            ⟨?_, ?_⟩, formInv_closed rfl rfl, editInv_closed rfl,
            fun hp => Bool.noConfusion hp, ?_⟩
  · intro _
    refine ⟨?_, rfl⟩
    have h0 : 0 < env.get_hosts.length := List.length_pos.2 h1
    show env.get_hosts.length - 1 < env.get_hosts.length
    omega
  · intro he
    exact absurd he h1
  · exact henv.get_wf
  · intro _
    refine ⟨?_, rfl⟩
    rcases not_and_or.1 h2 with h' | h'
    · exact Nat.lt_of_not_le h'
    · exact absurd h1 h'
  · intro he
    exact absurd he h1
  · exact henv.get_wf
  · intro hne
    exact absurd hne h1
  · intro _
    rfl
  · exact henv.get_wf
  · intro _
    refine ⟨?_, rfl⟩
    have h0 : 0 < (env.search_results q).length := List.length_pos.2 h1
    show (env.search_results q).length - 1 < (env.search_results q).length
    omega
  · intro he
    exact absurd he h1
  · exact henv.search_wf q
  · intro _
    refine ⟨?_, rfl⟩
    rcases not_and_or.1 h2 with h' | h'
    · exact Nat.lt_of_not_le h'
    · exact absurd h1 h'
  · intro he
    exact absurd he h1
  · exact henv.search_wf q
  · intro hne
    exact absurd hne h1
  · intro _
    rfl
  · exact henv.search_wf q

lemma inv_refresh_then_error (env : StorageEnv) {s : LoopState} (henv : EnvWF env)
    (hinv : Inv s) (msg : String) :
    Inv { refreshAfterConnection env s with
          ui := showErrorMessage msg (refreshAfterConnection env s).ui } := by
  obtain ⟨ho1, hsel1, hform1, hedit1, hdel1, hwf1⟩ := inv_refreshAfterConnection env henv hinv
  have hui := refreshAfterConnection_ui env s
  have h1 : (refreshAfterConnection env s).ui.search.show_popup = false := by rw [hui]; rfl
  have h2 : (refreshAfterConnection env s).ui.delete_confirm.shown = false := by rw [hui]; rfl
  have h3 : (refreshAfterConnection env s).ui.form.show_add = false := by rw [hui]; rfl
  have h4 : (refreshAfterConnection env s).ui.form.show_edit = false := by rw [hui]; rfl
  have h5 : (refreshAfterConnection env s).ui.host_key_confirm.shown = false := by rw [hui]; rfl
  exact ⟨overlayInv_error_only h1 h2 h3 h4 h5, selInv_of_eq rfl rfl rfl hsel1,
         formInv_closed h3 h4, editInv_closed h4, deleteInv_closed h2, hwf1⟩

lemma inv_exitAndConnect (env : StorageEnv) {s : LoopState} (henv : EnvWF env)
    (hinv : Inv s) : Inv (exitAndConnect env s).1 := by
  cases hc : env.connect_error with
  | none =>
    simp only [exitAndConnect, hc]
    exact inv_refreshAfterConnection env henv hinv
  | some e =>
    simp only [exitAndConnect, hc]
    exact inv_refresh_then_error env henv hinv _

lemma inv_handleHostKeyAccept (env : StorageEnv) {s : LoopState} (henv : EnvWF env)
    (hinv : Inv s) : Inv (handleHostKeyAccept env s) := by
  cases hc : env.host_key_error with
  | none =>
    simp only [handleHostKeyAccept, hc]
    exact inv_refreshAfterConnection env henv hinv
  | some e =>
    simp only [handleHostKeyAccept, hc]
    exact inv_refresh_then_error env henv hinv _

lemma inv_resetHostKey {s : LoopState} (hinv : Inv s) :
    Inv { s with ui := resetHostKeyConfirm s.ui } := by
  obtain ⟨ho, hsel, hform, hedit, hdel, hwf⟩ := hinv
  exact ⟨overlayInv_mono (u := s.ui) (fun h => h) (fun h => h) (fun h => h) (fun h => h)
           (fun hp => Bool.noConfusion hp) (fun h => h) ho,
         selInv_of_eq rfl rfl rfl hsel, formInv_of_eq rfl rfl rfl hform,
         editInv_of_eq rfl rfl rfl rfl hedit, deleteInv_of_eq rfl rfl hdel, hwf⟩

lemma inv_handleHostKeyEvent (env : StorageEnv) (key : KeyCode) {s : LoopState}
    (henv : EnvWF env) (hinv : Inv s) : Inv (handleHostKeyEvent env key s) := by
  obtain ⟨ho, hsel, hform, hedit, hdel, hwf⟩ := hinv
  cases key with
  | enter =>
    simp only [handleHostKeyEvent]
    rcases hh : s.ui.host_key_confirm.host with _ | h
    · exact inv_resetHostKey ⟨ho, hsel, hform, hedit, hdel, hwf⟩
    · split_ifs with hsl
      · exact inv_resetHostKey (inv_handleHostKeyAccept env henv ⟨ho, hsel, hform, hedit, hdel, hwf⟩)
      · exact inv_resetHostKey ⟨ho, hsel, hform, hedit, hdel, hwf⟩
  | esc => exact inv_resetHostKey ⟨ho, hsel, hform, hedit, hdel, hwf⟩
  | left =>
    exact ⟨overlayInv_of_eq rfl rfl rfl rfl rfl rfl ho, selInv_of_eq rfl rfl rfl hsel,
           formInv_of_eq rfl rfl rfl hform, editInv_of_eq rfl rfl rfl rfl hedit,
           deleteInv_of_eq rfl rfl hdel, hwf⟩
  | right =>
    exact ⟨overlayInv_of_eq rfl rfl rfl rfl rfl rfl ho, selInv_of_eq rfl rfl rfl hsel,
           formInv_of_eq rfl rfl rfl hform, editInv_of_eq rfl rfl rfl rfl hedit,
           deleteInv_of_eq rfl rfl hdel, hwf⟩
  | char c =>
    simp only [handleHostKeyEvent]
    split_ifs with hch hcl hcy hcn
    · exact ⟨overlayInv_of_eq rfl rfl rfl rfl rfl rfl ho, selInv_of_eq rfl rfl rfl hsel,
             formInv_of_eq rfl rfl rfl hform, editInv_of_eq rfl rfl rfl rfl hedit,
             deleteInv_of_eq rfl rfl hdel, hwf⟩
    · exact ⟨overlayInv_of_eq rfl rfl rfl rfl rfl rfl ho, selInv_of_eq rfl rfl rfl hsel,
             formInv_of_eq rfl rfl rfl hform, editInv_of_eq rfl rfl rfl rfl hedit,
             deleteInv_of_eq rfl rfl hdel, hwf⟩
    · rcases hh : s.ui.host_key_confirm.host with _ | h
      · exact inv_resetHostKey ⟨ho, hsel, hform, hedit, hdel, hwf⟩
      · exact inv_resetHostKey (inv_handleHostKeyAccept env henv ⟨ho, hsel, hform, hedit, hdel, hwf⟩)
    · exact inv_resetHostKey ⟨ho, hsel, hform, hedit, hdel, hwf⟩
    · exact ⟨ho, hsel, hform, hedit, hdel, hwf⟩
  | tab => exact ⟨ho, hsel, hform, hedit, hdel, hwf⟩
  | down => exact ⟨ho, hsel, hform, hedit, hdel, hwf⟩
  | up => exact ⟨ho, hsel, hform, hedit, hdel, hwf⟩
  | backspace => exact ⟨ho, hsel, hform, hedit, hdel, hwf⟩
  | other => exact ⟨ho, hsel, hform, hedit, hdel, hwf⟩

/-- The gate for `handle_main_event`: no overlay and no error dialog is
active (this is exactly when `process_events` routes a key to it). -/
def mainFlags (u : UiState) : Prop :=
  u.search.show_popup = false ∧ u.host_key_confirm.shown = false ∧
  u.delete_confirm.shown = false ∧ u.form.show_add = false ∧
  u.form.show_edit = false ∧ u.error_modal.shown = false

lemma selInv_hosts_samelen {s : LoopState} (hosts2 : List SshHost)
    (hlen : hosts2.length = s.hosts.length) (hsel : SelInv s) :
    SelInv { s with hosts := hosts2 } := by
  constructor
  · intro hne
    have h0 : s.hosts ≠ [] := by
      intro h
      apply hne
      show hosts2 = []
      apply List.eq_nil_of_length_eq_zero
      rw [hlen, h]
      rfl
    obtain ⟨hl, ht⟩ := hsel.1 h0
    refine ⟨?_, ht⟩
    show s.selected < hosts2.length
    rw [hlen]
    exact hl
  · intro he
    apply hsel.2
    apply List.eq_nil_of_length_eq_zero
    rw [← hlen]
    exact congrArg List.length (he : hosts2 = [])

lemma inv_handleConnectRequest (env : StorageEnv) (host : String) {s : LoopState}
    (henv : EnvWF env) (hinv : Inv s) (hg : mainFlags s.ui) :
    Inv (handleConnectRequest env host s) := by
  obtain ⟨ho, hsel, hform, hedit, hdel, hwf⟩ := hinv
  obtain ⟨g1, g2, g3, g4, g5, g6⟩ := hg
  simp only [handleConnectRequest]
  split_ifs with hk hs
  · exact ⟨overlayInv_hostkey_only g1 g3 g4 g5 g6, selInv_of_eq rfl rfl rfl hsel,
           formInv_of_eq rfl rfl rfl hform, editInv_of_eq rfl rfl rfl rfl hedit,
           deleteInv_closed g3, hwf⟩
  · exact inv_exitAndConnect env henv ⟨ho, hsel, hform, hedit, hdel, hwf⟩
  · split <;>
      exact ⟨overlayInv_error_only g1 g3 g4 g5 g2, selInv_of_eq rfl rfl rfl hsel,
             formInv_closed g4 g5, editInv_closed g5, deleteInv_closed g3, hwf⟩

lemma handleMainEvent_isSome (env : StorageEnv) (key : KeyCode) {s : LoopState}
    (hsel : SelInv s) : (handleMainEvent env key s).isSome = true := by
  cases key with
  | down =>
    simp only [handleMainEvent]
    split_ifs <;> rfl
  | up =>
    simp only [handleMainEvent]
    split_ifs <;> rfl
  | enter =>
    by_cases hne : s.hosts ≠ []
    · have hlt := (hsel.1 hne).1
      have hget : s.hosts[s.selected]? = some (s.hosts[s.selected]) :=
        List.getElem?_eq_getElem hlt
      simp [handleMainEvent, hne, hget]
    · simp [handleMainEvent, hne]
  | char c =>
    by_cases hne : s.hosts ≠ []
    · have hlt := (hsel.1 hne).1
      have hget : s.hosts[s.selected]? = some (s.hosts[s.selected]) :=
        List.getElem?_eq_getElem hlt
      simp only [handleMainEvent]
      split_ifs <;> simp [hget]
    · simp only [handleMainEvent]
      split_ifs <;> simp [hne]
  | esc => rfl
  | tab => rfl
  | backspace => rfl
  | left => rfl
  | right => rfl
  | other => rfl

lemma inv_handleMainEvent (env : StorageEnv) (key : KeyCode) {s : LoopState}
    (henv : EnvWF env) (hinv : Inv s) (hg : mainFlags s.ui) :
    ∀ p, handleMainEvent env key s = some p → Inv p.1 := by
  obtain ⟨ho, hsel, hform, hedit, hdel, hwf⟩ := hinv
  obtain ⟨g1, g2, g3, g4, g5, g6⟩ := hg
  intro p hp
  cases key with
  | down =>
    by_cases hc : s.hosts ≠ [] ∧ s.selected < s.hosts.length - 1
    · simp [handleMainEvent, hc] at hp
      subst hp
      refine ⟨ho, ⟨?_, ?_⟩, hform, hedit, hdel, hwf⟩
      · intro _
        refine ⟨?_, rfl⟩
        show s.selected + 1 < s.hosts.length
        have h0 : 0 < s.hosts.length := List.length_pos.2 hc.1
        have := hc.2
        omega
      · intro he
        exact absurd he hc.1
    · simp [handleMainEvent, hc] at hp
      subst hp
      exact ⟨ho, hsel, hform, hedit, hdel, hwf⟩
  | up =>
    by_cases hc : s.hosts ≠ [] ∧ 0 < s.selected
    · simp [handleMainEvent, hc] at hp
      subst hp
      refine ⟨ho, ⟨?_, ?_⟩, hform, hedit, hdel, hwf⟩
      · intro _
        refine ⟨?_, rfl⟩
        show s.selected - 1 < s.hosts.length
        have := (hsel.1 hc.1).1
        omega
      · intro he
        exact absurd he hc.1
    · simp [handleMainEvent, hc] at hp
      subst hp
      exact ⟨ho, hsel, hform, hedit, hdel, hwf⟩
  | enter =>
    by_cases hne : s.hosts ≠ []
    · have hlt := (hsel.1 hne).1
      have hget : s.hosts[s.selected]? = some (s.hosts[s.selected]) :=
        List.getElem?_eq_getElem hlt
      simp [handleMainEvent, hne, hget] at hp
      subst hp
      exact inv_handleConnectRequest env _ henv ⟨ho, hsel, hform, hedit, hdel, hwf⟩
        ⟨g1, g2, g3, g4, g5, g6⟩
    · simp [handleMainEvent, hne] at hp
      subst hp
      exact ⟨ho, hsel, hform, hedit, hdel, hwf⟩
  | char c =>
    by_cases hq : c = 'q'
    · simp [handleMainEvent, hq] at hp
      subst hp
      exact ⟨ho, hsel, hform, hedit, hdel, hwf⟩
    · by_cases ha : c = 'a'
      · simp [handleMainEvent, hq, ha] at hp
        subst hp
        exact ⟨overlayInv_form_only g1 g3 g2 g6, selInv_of_eq rfl rfl rfl hsel,
               fun _ => rfl, editInv_closed g5, deleteInv_closed g3, hwf⟩
      · by_cases he : c = 'e'
        · by_cases hne : s.hosts ≠ []
          · have hlt := (hsel.1 hne).1
            have hget : s.hosts[s.selected]? = some (s.hosts[s.selected]) :=
              List.getElem?_eq_getElem hlt
            simp [handleMainEvent, hq, ha, he, hne, hget] at hp
            subst hp
            refine ⟨overlayInv_form_only g1 g3 g2 g6, selInv_of_eq rfl rfl rfl hsel,
                   fun _ => rfl, ?_, deleteInv_closed g3, hwf⟩
            intro _
            refine ⟨?_, fun hfoc => absurd hfoc one_ne_zero⟩
            intro f0 h0
            have hf0 := (Option.some.inj h0).symm
            rw [hf0]
            exact hwf _ (List.getElem_mem hlt)
          · simp [handleMainEvent, hq, ha, he, hne] at hp
            subst hp
            exact ⟨ho, hsel, hform, hedit, hdel, hwf⟩
        · by_cases hd : c = 'd'
          · by_cases hne : s.hosts ≠ []
            · have hlt := (hsel.1 hne).1
              have hget : s.hosts[s.selected]? = some (s.hosts[s.selected]) :=
                List.getElem?_eq_getElem hlt
              simp [handleMainEvent, hq, ha, he, hd, hne, hget] at hp
              subst hp
              exact ⟨overlayInv_delete_only g1 g4 g5 g2 g6, selInv_of_eq rfl rfl rfl hsel,
                     formInv_closed g4 g5, editInv_closed g5, fun _ => rfl, hwf⟩
            · simp [handleMainEvent, hq, ha, he, hd, hne] at hp
              subst hp
              exact ⟨ho, hsel, hform, hedit, hdel, hwf⟩
          · by_cases hsch : c = 's' ∨ c = '/'
            · simp [handleMainEvent, hq, ha, he, hd, hsch] at hp
              subst hp
              exact ⟨overlayInv_search_only g3 g4 g5 g2 g6, selInv_of_eq rfl rfl rfl hsel,
                     formInv_closed g4 g5, editInv_closed g5, deleteInv_closed g3, hwf⟩
            · by_cases ht : c = 't'
              · by_cases hne : s.hosts ≠ []
                · simp [handleMainEvent, hq, ha, he, hd, hsch, ht, hne] at hp
                  subst hp
                  simp only [startConnectionTest]
                  split_ifs with hsl
                  · exact ⟨ho, hsel, hform, hedit, hdel, hwf⟩
                  · exact ⟨ho, selInv_hosts_samelen _
                             (setHostStatus_length s.hosts s.selected .Connecting) hsel,
                           hform, hedit, hdel,
                           WFHosts_setHostStatus s.selected .Connecting hwf⟩
                · simp [handleMainEvent, hq, ha, he, hd, hsch, ht, hne] at hp
                  subst hp
                  exact ⟨ho, hsel, hform, hedit, hdel, hwf⟩
              · by_cases hT : c = 'T'
                · by_cases hne : s.hosts ≠ []
                  · simp [handleMainEvent, hq, ha, he, hd, hsch, ht, hT, hne] at hp
                    subst hp
                    exact ⟨ho, selInv_hosts_samelen _ (List.length_map _ _) hsel,
                           hform, hedit, hdel, WFHosts_map_status _ hwf⟩
                  · simp [handleMainEvent, hq, ha, he, hd, hsch, ht, hT, hne] at hp
                    subst hp
                    exact ⟨ho, hsel, hform, hedit, hdel, hwf⟩
                · simp [handleMainEvent, hq, ha, he, hd, hsch, ht, hT] at hp
                  subst hp
                  exact ⟨ho, hsel, hform, hedit, hdel, hwf⟩
  | esc =>
    simp [handleMainEvent] at hp
    subst hp
    exact ⟨ho, hsel, hform, hedit, hdel, hwf⟩
  | tab =>
    simp [handleMainEvent] at hp
    subst hp
    exact ⟨ho, hsel, hform, hedit, hdel, hwf⟩
  | backspace =>
    simp [handleMainEvent] at hp
    subst hp
    exact ⟨ho, hsel, hform, hedit, hdel, hwf⟩
  | left =>
    simp [handleMainEvent] at hp
    subst hp
    exact ⟨ho, hsel, hform, hedit, hdel, hwf⟩
  | right =>
    simp [handleMainEvent] at hp
    subst hp
    exact ⟨ho, hsel, hform, hedit, hdel, hwf⟩
  | other =>
    simp [handleMainEvent] at hp
    subst hp
    exact ⟨ho, hsel, hform, hedit, hdel, hwf⟩

lemma inv_processKey (env : StorageEnv) (key : KeyCode) {s : LoopState}
    (henv : EnvWF env) (hinv : Inv s) :
    (processKey env key s).isSome = true ∧
      ∀ p, processKey env key s = some p → Inv p.1 := by
  obtain ⟨ho, hsel, hform, hedit, hdel, hwf⟩ := hinv
  by_cases herr : s.ui.error_modal.shown = true
  · constructor
    · simp [processKey, herr]
    · intro p hp
      simp [processKey, herr] at hp
      subst hp
      exact ⟨overlayInv_mono (u := s.ui) (fun h => h) (fun h => h) (fun h => h) (fun h => h)
               (fun h => h) (fun hp2 => Bool.noConfusion hp2) ho,
             selInv_of_eq rfl rfl rfl hsel, formInv_of_eq rfl rfl rfl hform,
             editInv_of_eq rfl rfl rfl rfl hedit, deleteInv_of_eq rfl rfl hdel, hwf⟩
  · by_cases hsp : s.ui.search.show_popup = true
    · constructor
      · simp [processKey, herr, hsp]
      · intro p hp
        simp [processKey, herr, hsp] at hp
        subst hp
        exact inv_handleSearchEvent env key henv ⟨ho, hsel, hform, hedit, hdel, hwf⟩
    · by_cases hhk : s.ui.host_key_confirm.shown = true
      · constructor
        · simp [processKey, herr, hsp, hhk]
        · intro p hp
          simp [processKey, herr, hsp, hhk] at hp
          subst hp
          exact inv_handleHostKeyEvent env key henv ⟨ho, hsel, hform, hedit, hdel, hwf⟩
      · by_cases hdc : s.ui.delete_confirm.shown = true
        · constructor
          · simp [processKey, herr, hsp, hhk, hdc]
          · intro p hp
            simp [processKey, herr, hsp, hhk, hdc] at hp
            subst hp
            exact inv_handleDeleteConfirmEvent env key henv
              ⟨ho, hsel, hform, hedit, hdel, hwf⟩
        · by_cases hfrm : s.ui.form.show_add = true ∨ s.ui.form.show_edit = true
          · constructor
            · have hs7 := handleFormEvent_isSome env key (hform hfrm)
              simp [processKey, herr, hsp, hhk, hdc, hfrm, Option.isSome_map, hs7]
            · intro p hp
              simp only [processKey] at hp
              rw [if_neg herr, if_neg hsp, if_neg hhk, if_neg hdc, if_pos hfrm] at hp
              obtain ⟨q, hq, hq2⟩ := Option.map_eq_some'.1 hp
              have hiq := inv_handleFormEvent env key henv
                ⟨ho, hsel, hform, hedit, hdel, hwf⟩ hfrm q hq
              rw [← hq2]
              exact hiq
          · have hflags : mainFlags s.ui :=
              ⟨bool_eq_false hsp, bool_eq_false hhk, bool_eq_false hdc,
               bool_eq_false (fun h => hfrm (Or.inl h)),
               bool_eq_false (fun h => hfrm (Or.inr h)), bool_eq_false herr⟩
            constructor
            · have hms := handleMainEvent_isSome env key hsel
              simp only [processKey]
              rw [if_neg herr, if_neg hsp, if_neg hhk, if_neg hdc, if_neg hfrm]
              exact hms
            · intro p hp
              simp only [processKey] at hp
              rw [if_neg herr, if_neg hsp, if_neg hhk, if_neg hdc, if_neg hfrm] at hp
              exact inv_handleMainEvent env key henv
                ⟨ho, hsel, hform, hedit, hdel, hwf⟩ hflags p hp

lemma inv_iterStep (env : StorageEnv) (key : Option KeyCode) {s s' : LoopState}
    {q : Bool} (henv : EnvWF env) (hinv : Inv s)
    (h : iterStep env key s = some (s', q)) : Inv s' := by
  have hm : Inv { s with hosts := (updateConnectionTestResults s.hosts env.pending).1 } :=
    inv_merge env hinv
  cases key with
  | none =>
    simp only [iterStep, Option.some.injEq] at h
    have h1 : { s with hosts := (updateConnectionTestResults s.hosts env.pending).1 } = s' :=
      congrArg Prod.fst h
    rw [← h1]
    exact hm
  | some k =>
    simp only [iterStep] at h
    exact (inv_processKey env k henv hm).2 (s', q) h

/-- Every state the event router can reach satisfies the combined
invariant `Inv`. -/
lemma reachable_inv {s : LoopState} (hr : Reachable s) : Inv s := by
  induction hr with
  | init hosts hne hwf =>
    refine ⟨⟨fun hp => Bool.noConfusion hp, fun hp => Bool.noConfusion hp,
             fun hp => by rcases hp with hp | hp <;> exact Bool.noConfusion hp,
             fun hp => Bool.noConfusion hp⟩, ⟨?_, ?_⟩, formInv_closed rfl rfl,
            editInv_closed rfl, fun hp => Bool.noConfusion hp, WFHosts_map_status _ hwf⟩
    · intro _
      refine ⟨?_, rfl⟩
      show 0 < (hosts.map (fun h => ({ h with connection_status := .Connecting } : SshHost))).length
      rw [List.length_map]
      exact List.length_pos.2 hne
    · intro he
      have he' : hosts.map (fun h => ({ h with connection_status := .Connecting } : SshHost)) = [] := he
      exact absurd (List.map_eq_nil_iff.1 he') hne
  | step env key s1 s1' henv hr1 hstep ih =>
    exact inv_iterStep env key henv ih hstep

lemma rustParseU16_eq_some {v : String} {n : Nat} :
    rustParseU16 v = some n ↔ rustStrParseNat v = some n ∧ n ≤ 65535 := by
  unfold rustParseU16
  cases hp : rustStrParseNat v with
  | none => simp
  | some m =>
    show (if m ≤ 65535 then some m else none) = some n ↔ some m = some n ∧ n ≤ 65535
    by_cases hm : m ≤ 65535
    · rw [if_pos hm]
      constructor
      · intro h
        cases Option.some.inj h
        exact ⟨rfl, hm⟩
      · intro ⟨h1, _⟩
        cases Option.some.inj h1
        rfl
    · rw [if_neg hm]
      constructor
      · intro h
        exact Option.noConfusion h
      · intro ⟨h1, h2⟩
        cases Option.some.inj h1
        exact absurd h2 hm

lemma validateFormPort_cases (v : String) :
    (v = "" ∧ validateFormPort v = Except.ok none) ∨
    (v ≠ "" ∧ ∃ n, rustParseU16 v = some n ∧ n ≠ 0 ∧
      validateFormPort v = Except.ok (some n)) ∨
    (v ≠ "" ∧ ∃ n, rustParseU16 v = some n ∧ n = 0 ∧
      validateFormPort v = Except.error (t "error.error_port_range")) ∨
    (v ≠ "" ∧ rustParseU16 v = none ∧
      validateFormPort v = Except.error (t "error.error_port_format")) := by
  unfold validateFormPort
  split
  next hv => exact Or.inl ⟨hv, rfl⟩
  next hv =>
    split
    next n hu =>
      split
      next hz => exact Or.inr (Or.inr (Or.inl ⟨hv, n, hu, hz, rfl⟩))
      next hz => exact Or.inr (Or.inl ⟨hv, n, hu, hz, rfl⟩)
    next hu => exact Or.inr (Or.inr (Or.inr ⟨hv, hu, rfl⟩))

/-- A storage environment for concrete evaluations: one host, empty search
results, failing probe, successful CRUD. -/
def demoHost : SshHost := { host := "box1", hostname := some "10.0.0.5" }

/-- See `demoHost`. -/
def demoEnv : StorageEnv :=
  { get_hosts := [demoHost]
    search_results := fun _ => []
    try_connect := fun _ => (false, false, none)
    save_result := none
    connect_error := none
    host_key_error := none
    pending := [] }

/-- An Add form as `show_add_form` builds it, filled with the boundary
scenario of the spec (identifier `box1`, address `10.0.0.5`) and the given
port field value. -/
def portFixture (portv : String) : LoopState :=
  { ui := { form := { show_add := true
                      fields := [FormField.new (t "form.host") "box1",
                                 FormField.new (t "form.hostname") "10.0.0.5",
                                 FormField.new (t "form.user") "",
                                 FormField.new (t "form.port") portv,
                                 FormField.new (t "form.proxy_command") "",
                                 FormField.new (t "form.identity_file") "",
                                 FormField.new (t "form.password") ""] } }
    hosts := [demoHost]
    selected := 0
    table_sel := some 0 }

/-- C5: on Save, the port field is accepted exactly when it is empty
(passed to storage as `none`) or parses as an unsigned integer in
`[1, 65535]`; in particular `"0"` and `"65536"` are rejected while `"1"`
and `"65535"` are accepted, as evaluated both on the port-validation step
and on `save_form_data` over a concrete Add form. -/
theorem C5_port_validation :
    (∀ v : String,
      ((∃ p, validateFormPort v = Except.ok p) ↔
        v = "" ∨ ∃ n, rustStrParseNat v = some n ∧ 1 ≤ n ∧ n ≤ 65535) ∧
      (∀ p, validateFormPort v = Except.ok p →
        p = if v = "" then none else rustParseU16 v)) ∧
    validateFormPort "" = Except.ok none ∧
    validateFormPort "0" = Except.error (t "error.error_port_range") ∧
    validateFormPort "65536" = Except.error (t "error.error_port_format") ∧
    validateFormPort "1" = Except.ok (some 1) ∧
    validateFormPort "65535" = Except.ok (some 65535) ∧
    (∃ st, saveFormData demoEnv (portFixture "0") = some (st, false, none) ∧
      st.ui.error_modal.shown = true ∧ st.ui.form.error_field_index = some 3) ∧
    (∃ st, saveFormData demoEnv (portFixture "65536") = some (st, false, none) ∧
      st.ui.error_modal.shown = true ∧ st.ui.form.error_field_index = some 3) ∧
    (∃ st r, saveFormData demoEnv (portFixture "1") = some (st, true, some r) ∧
      r.portArg = some 1) ∧
    (∃ st r, saveFormData demoEnv (portFixture "65535") = some (st, true, some r) ∧
      r.portArg = some 65535) ∧
    (∃ st r, saveFormData demoEnv (portFixture "") = some (st, true, some r) ∧
      r.portArg = none) := by
  refine ⟨?_, rfl, rfl, rfl, rfl, rfl,
          ⟨_, rfl, rfl, rfl⟩, ⟨_, rfl, rfl, rfl⟩,
          ⟨_, _, rfl, rfl⟩, ⟨_, _, rfl, rfl⟩, ⟨_, _, rfl, rfl⟩⟩
  intro v
  rcases validateFormPort_cases v with ⟨hv, he⟩ | ⟨hv, n, hu, hz, he⟩ |
    ⟨hv, n, hu, hz, he⟩ | ⟨hv, hu, he⟩
  · constructor
    · constructor
      · intro _
        exact Or.inl hv
      · intro _
        exact ⟨none, he⟩
    · intro p hp
      rw [he] at hp
      rw [if_pos hv]
      exact (Except.ok.inj hp).symm
  · obtain ⟨h1, h2⟩ := rustParseU16_eq_some.1 hu
    constructor
    · constructor
      · intro _
        exact Or.inr ⟨n, h1, Nat.one_le_iff_ne_zero.2 hz, h2⟩
      · intro _
        exact ⟨some n, he⟩
    · intro p hp
      rw [he] at hp
      rw [if_neg hv, hu]
      exact (Except.ok.inj hp).symm
  · constructor
    · constructor
      · intro ⟨p, hp⟩
        rw [he] at hp
        exact Except.noConfusion hp
      · intro h
        rcases h with hv0 | ⟨m, h1, h2, h3⟩
        · exact absurd hv0 hv
        · have hm : rustParseU16 v = some m := rustParseU16_eq_some.2 ⟨h1, h3⟩
          rw [hu] at hm
          cases Option.some.inj hm
          exact absurd hz (Nat.one_le_iff_ne_zero.1 h2)
    · intro p hp
      rw [he] at hp
      exact Except.noConfusion hp
  · constructor
    · constructor
      · intro ⟨p, hp⟩
        rw [he] at hp
        exact Except.noConfusion hp
      · intro h
        rcases h with hv0 | ⟨m, h1, h2, h3⟩
        · exact absurd hv0 hv
        · have hm : rustParseU16 v = some m := rustParseU16_eq_some.2 ⟨h1, h3⟩
          rw [hu] at hm
          exact Option.noConfusion hm
    · intro p hp
      rw [he] at hp
      exact Except.noConfusion hp

/-- Witness for `C5_port_validation` at a concrete accepted input. -/
theorem C5_port_validation_witness :
    validateFormPort "22" = Except.ok (some 22) ∧
    (some (22 : Nat)) = (if ("22" : String) = "" then none else rustParseU16 "22") := by
  have h := (C5_port_validation.1 "22").2
  have hok : validateFormPort "22" = Except.ok (some 22) := rfl
  exact ⟨hok, h (some 22) hok⟩

/-- C4: in the main event loop, a successful render resets the failure
counter; each render failure strictly below the threshold of five runs the
emergency terminal recovery, reinitialises the event stream and backs off
with the loop continuing, while the fifth consecutive failure runs the
same recovery and terminates the loop with the error. -/
theorem C4_render_failure_threshold :
    (∀ c, loopIter true c = { actions := [], next := some 0 }) ∧
    (∀ c, c + 1 < MAX_ERRORS →
      loopIter false c =
        { actions := [.emergencyRecovery, .reinitEvents, .backoff],
          next := some (c + 1) }) ∧
    (∀ c, MAX_ERRORS ≤ c + 1 →
      loopIter false c = { actions := [.emergencyRecovery], next := none }) ∧
    (∀ n, n < MAX_ERRORS → failStreak n 0 = some n) ∧
    failStreak MAX_ERRORS 0 = none := by
  refine ⟨fun c => rfl, ?_, ?_, ?_, rfl⟩
  · intro c h
    unfold MAX_ERRORS at h
    have h4 : c < 4 := by omega
    interval_cases c <;> rfl
  · intro c h
    show (if MAX_ERRORS ≤ c + 1 then
            ({ actions := [.emergencyRecovery], next := none } : RenderStepOut)
          else { actions := [.emergencyRecovery, .reinitEvents, .backoff],
                 next := some (c + 1) }) =
         { actions := [.emergencyRecovery], next := none }
    rw [if_pos h]
  · intro n h
    unfold MAX_ERRORS at h
    have h5 : n < 5 := h
    interval_cases n <;> rfl

/-- Witness for `C4_render_failure_threshold`: the third failure continues
with counter 3, the fifth is fatal, four failures leave the loop running. -/
theorem C4_render_failure_threshold_witness :
    loopIter false 2 =
      { actions := [.emergencyRecovery, .reinitEvents, .backoff], next := some 3 } ∧
    loopIter false 4 = { actions := [.emergencyRecovery], next := none } ∧
    failStreak 4 0 = some 4 :=
  ⟨C4_render_failure_threshold.2.1 2 (by decide),
   C4_render_failure_threshold.2.2.1 4 (by decide),
   C4_render_failure_threshold.2.2.2.1 4 (by decide)⟩

/-- Positions (in buffer order, counting from `i`) of the buffer entries the
first merge pass consumes: the completed entries whose host index is in
bounds. -/
def compSpec : List (Nat × Option ConnectionStatus) → Nat → Nat → List Nat
  | [], _, _ => []
  | e :: rest, i, n =>
    if e.2.isSome = true ∧ e.1 < n then i :: compSpec rest (i + 1) n
    else compSpec rest (i + 1) n

lemma mergePass_comp (pending : List (Nat × Option ConnectionStatus)) :
    ∀ (i : Nat) (hosts : List SshHost),
    (mergePass pending i hosts).2 = compSpec pending i hosts.length := by
  induction pending with
  | nil => intro i hosts; rfl
  | cons e rest ih =>
    intro i hosts
    obtain ⟨idx, so⟩ := e
    cases so with
    | none =>
      show (mergePass rest (i + 1) hosts).2 =
        compSpec ((idx, none) :: rest) i hosts.length
      rw [ih]
      show compSpec rest (i + 1) hosts.length =
        (if (none : Option ConnectionStatus).isSome = true ∧ idx < hosts.length
         then i :: compSpec rest (i + 1) hosts.length
         else compSpec rest (i + 1) hosts.length)
      rw [if_neg (fun hc => Bool.noConfusion hc.1)]
    | some st =>
      by_cases hlt : idx < hosts.length
      · show (if idx < hosts.length then
                (let hosts2 := setHostStatus hosts idx st;
                 let r := mergePass rest (i + 1) hosts2;
                 (r.1, i :: r.2))
              else mergePass rest (i + 1) hosts).2 =
          compSpec ((idx, some st) :: rest) i hosts.length
        rw [if_pos hlt]
        show i :: (mergePass rest (i + 1) (setHostStatus hosts idx st)).2 =
          compSpec ((idx, some st) :: rest) i hosts.length
        rw [ih, setHostStatus_length]
        show _ = (if (some st).isSome = true ∧ idx < hosts.length
                  then i :: compSpec rest (i + 1) hosts.length
                  else compSpec rest (i + 1) hosts.length)
        rw [if_pos ⟨rfl, hlt⟩]
      · show (if idx < hosts.length then
                (let hosts2 := setHostStatus hosts idx st;
                 let r := mergePass rest (i + 1) hosts2;
                 (r.1, i :: r.2))
              else mergePass rest (i + 1) hosts).2 =
          compSpec ((idx, some st) :: rest) i hosts.length
        rw [if_neg hlt]
        rw [ih]
        show _ = (if (some st).isSome = true ∧ idx < hosts.length
                  then i :: compSpec rest (i + 1) hosts.length
                  else compSpec rest (i + 1) hosts.length)
        rw [if_neg (fun hc => hlt hc.2)]

lemma compSpec_shift (pending : List (Nat × Option ConnectionStatus)) :
    ∀ (i n : Nat), compSpec pending (i + 1) n = (compSpec pending i n).map (· + 1) := by
  induction pending with
  | nil => intro i n; rfl
  | cons e rest ih =>
    intro i n
    simp only [compSpec]
    by_cases hc : e.2.isSome = true ∧ e.1 < n
    · rw [if_pos hc, if_pos hc, List.map_cons, ih (i + 1) n]
    · rw [if_neg hc, if_neg hc]
      exact ih (i + 1) n

lemma foldl_eraseIdx_succ {α : Type} (qs : List Nat) :
    ∀ (l : List α) (x : α),
    (qs.map (· + 1)).foldl (fun acc i => acc.eraseIdx i) (x :: l) =
      x :: qs.foldl (fun acc i => acc.eraseIdx i) l := by
  induction qs with
  | nil => intro l x; rfl
  | cons q qs ih =>
    intro l x
    simp only [List.map_cons, List.foldl_cons]
    show (qs.map (· + 1)).foldl (fun acc i => acc.eraseIdx i) (x :: l.eraseIdx q) = _
    exact ih _ x

lemma removeIdxs_succ (l : List (Nat × Option ConnectionStatus))
    (x : Nat × Option ConnectionStatus) (ps : List Nat) :
    removeIdxs (x :: l) (ps.map (· + 1)) = x :: removeIdxs l ps := by
  unfold removeIdxs
  rw [← List.map_reverse]
  exact foldl_eraseIdx_succ _ _ _

lemma removeIdxs_zero_succ (l : List (Nat × Option ConnectionStatus))
    (x : Nat × Option ConnectionStatus) (ps : List Nat) :
    removeIdxs (x :: l) (0 :: ps.map (· + 1)) = removeIdxs l ps := by
  unfold removeIdxs
  rw [List.reverse_cons, List.foldl_append, ← List.map_reverse,
      foldl_eraseIdx_succ]
  rfl

lemma removeIdxs_compSpec (n : Nat) (l : List (Nat × Option ConnectionStatus)) :
    removeIdxs l (compSpec l 0 n) =
      l.filter (fun e => !(e.2.isSome && decide (e.1 < n))) := by
  induction l with
  | nil => rfl
  | cons e rest ih =>
    by_cases hc : e.2.isSome = true ∧ e.1 < n
    · have hspec : compSpec (e :: rest) 0 n = 0 :: (compSpec rest 0 n).map (· + 1) := by
        simp only [compSpec]
        rw [if_pos hc, compSpec_shift]
      have hfe : (!(e.2.isSome && decide (e.1 < n))) = false := by
        rw [hc.1, decide_eq_true hc.2]
        rfl
      rw [hspec, removeIdxs_zero_succ, ih, List.filter_cons, hfe,
          if_neg Bool.false_ne_true]
    · have hspec : compSpec (e :: rest) 0 n = (compSpec rest 0 n).map (· + 1) := by
        simp only [compSpec]
        rw [if_neg hc, compSpec_shift]
      have hfe : (!(e.2.isSome && decide (e.1 < n))) = true := by
        cases hs : e.2.isSome with
        | false => rfl
        | true =>
          have hn : ¬e.1 < n := fun hlt => hc ⟨hs, hlt⟩
          rw [decide_eq_false hn, Bool.and_false]
          rfl
      rw [hspec, removeIdxs_succ, ih, List.filter_cons, hfe, if_pos rfl]

lemma mergePass_hosts_stale (pending : List (Nat × Option ConnectionStatus)) :
    ∀ (i : Nat) (hosts : List SshHost),
    (∀ e ∈ pending, e.2.isSome = true → hosts.length ≤ e.1) →
    (mergePass pending i hosts).1 = hosts := by
  induction pending with
  | nil => intro i hosts _; rfl
  | cons e rest ih =>
    intro i hosts hall
    obtain ⟨idx, so⟩ := e
    cases so with
    | none =>
      show (mergePass rest (i + 1) hosts).1 = hosts
      exact ih _ _ (fun e he => hall e (List.mem_cons_of_mem _ he))
    | some st =>
      have hge : hosts.length ≤ idx :=
        hall (idx, some st) (List.mem_cons_self _ _) rfl
      show (if idx < hosts.length then
              (let hosts2 := setHostStatus hosts idx st;
               let r := mergePass rest (i + 1) hosts2;
               (r.1, i :: r.2))
            else mergePass rest (i + 1) hosts).1 = hosts
      rw [if_neg (Nat.not_lt.2 hge)]
      exact ih _ _ (fun e he => hall e (List.mem_cons_of_mem _ he))

/-- The buffer entry holding the completed probe result for host index 3,
with only one profile present: stale (out of bounds). -/
def c2Pending : List (Nat × Option ConnectionStatus) :=
  [(3, some (ConnectionStatus.Failed "connection refused"))]

/-- C2 counterexample: merging a completed probe entry whose host index (3)
is out of bounds for the one-element profile list leaves the profile list
unchanged and does NOT remove the stale entry from the shared result
buffer — the buffer is returned verbatim, contradicting the claim that the
merge step silently drops stale entries. -/
theorem C2_counterexample :
    updateConnectionTestResults [demoHost] c2Pending = ([demoHost], c2Pending) ∧
    c2Pending ≠ [] ∧
    ∀ e ∈ c2Pending, e.2.isSome = true ∧ ([demoHost] : List SshHost).length ≤ e.1 := by
  refine ⟨rfl, List.cons_ne_nil _ _, ?_⟩
  intro e he
  rcases List.mem_cons.1 he with h1 | h2
  · subst h1
    exact ⟨rfl, by decide⟩
  · exact absurd h2 (List.not_mem_nil _)

/-- C2 (amended): the merge step is total (never panics) and preserves the
profile-list length; the returned buffer consists exactly of the entries
that were not merged — pending entries and completed entries whose index is
out of bounds — so stale completed entries are RETAINED in the buffer, not
dropped; and when every completed entry is stale the profile list itself is
returned unchanged. -/
theorem C2_stale_probe_merge (hosts : List SshHost)
    (pending : List (Nat × Option ConnectionStatus)) :
    (updateConnectionTestResults hosts pending).1.length = hosts.length ∧
    (updateConnectionTestResults hosts pending).2 =
      pending.filter (fun e => !(e.2.isSome && decide (e.1 < hosts.length))) ∧
    (∀ e ∈ pending, e.2.isSome = true → hosts.length ≤ e.1 →
      e ∈ (updateConnectionTestResults hosts pending).2) ∧
    ((∀ e ∈ pending, e.2.isSome = true → hosts.length ≤ e.1) →
      (updateConnectionTestResults hosts pending).1 = hosts) := by
  have hbuf : (updateConnectionTestResults hosts pending).2 =
      pending.filter (fun e => !(e.2.isSome && decide (e.1 < hosts.length))) := by
    show removeIdxs pending (mergePass pending 0 hosts).2 = _
    rw [mergePass_comp, removeIdxs_compSpec]
  refine ⟨updateConnectionTestResults_length hosts pending, hbuf, ?_, ?_⟩
  · intro e he hs hge
    rw [hbuf]
    refine List.mem_filter.2 ⟨he, ?_⟩
    rw [hs, decide_eq_false (Nat.not_lt.2 hge), Bool.and_false]
    rfl
  · intro hall
    show (mergePass pending 0 hosts).1 = hosts
    exact mergePass_hosts_stale pending 0 hosts hall

/-- Witness for `C2_stale_probe_merge`: one stale completed entry and one
still-pending entry are both retained; the profile list survives. -/
theorem C2_stale_probe_merge_witness :
    (updateConnectionTestResults [demoHost]
      [(3, some (ConnectionStatus.Failed "x")), (0, none)]).2 =
      [(3, some (ConnectionStatus.Failed "x")), (0, none)] ∧
    (3, some (ConnectionStatus.Failed "x")) ∈
      (updateConnectionTestResults [demoHost]
        [(3, some (ConnectionStatus.Failed "x")), (0, none)]).2 ∧
    (updateConnectionTestResults [demoHost]
      [(3, some (ConnectionStatus.Failed "x")), (0, none)]).1 = [demoHost] := by
  have h := C2_stale_probe_merge [demoHost]
    [(3, some (ConnectionStatus.Failed "x")), (0, none)]
  refine ⟨?_, ?_, ?_⟩
  · rw [h.2.1]
    rfl
  · exact h.2.2.1 _ (List.mem_cons_self _ _) rfl (by decide)
  · refine h.2.2.2 ?_
    intro e he hs
    rcases List.mem_cons.1 he with h1 | h2
    · subst h1
      decide
    · rcases List.mem_cons.1 h2 with h3 | h4
      · subst h3
        exact Bool.noConfusion hs
      · exact absurd h4 (List.not_mem_nil _)

/-- The demo environment with a failing external command: the handoff's
child process reported failure. -/
def c3Env : StorageEnv := { demoEnv with connect_error := some "exit status 255" }

/-- C3: when the handoff's external command reports failure,
`exit_and_connect` ends with the error dialog shown carrying a non-empty
message; the action trace is exactly the fixed reclaim sequence (raw and
alternate-screen modes re-entered, screen cleared, stale input drained,
backend rebuilt, list refreshed, events reinitialised, full redraw forced)
followed by the error surfacing as the very last action — no error is
surfaced mid-transition — and the trace restores the raw/alternate-screen
flags to their pre-handoff values. -/
theorem C3_handoff_failure_reporting (env : StorageEnv) (s : LoopState) (e : String)
    (hc : env.connect_error = some e) :
    (exitAndConnect env s).1.ui.error_modal.shown = true ∧
    (exitAndConnect env s).1.ui.error_modal.message ≠ "" ∧
    (exitAndConnect env s).2 =
      reclaimTrace ++ [TermAction.showError (t "error.connection_failed" ++ ": " ++ e)] ∧
    (∀ m, TermAction.showError m ∉ reclaimTrace) ∧
    (exitAndConnect env s).2.getLast? =
      some (TermAction.showError (t "error.connection_failed" ++ ": " ++ e)) ∧
    applyTermTrace { raw := true, alt_screen := true } (exitAndConnect env s).2 =
      { raw := true, alt_screen := true } := by
  simp only [exitAndConnect, hc]
  refine ⟨by trivial, ?_, by trivial, ?_, ?_, by trivial⟩
  · intro h
    have h' : (t "error.connection_failed" ++ ": " ++ e : String) = "" := h
    have hlen := congrArg String.length h'
    rw [String.length_append, String.length_append] at hlen
    have h23 : (t "error.connection_failed").length = 23 := rfl
    have h2 : (": " : String).length = 2 := rfl
    have h0 : ("" : String).length = 0 := rfl
    rw [h23, h2, h0] at hlen
    omega
  · intro m hm
    simp [reclaimTrace, refreshTrace, reinitEventsTrace] at hm
  · exact List.getLast?_concat _

/-- Witness for `C3_handoff_failure_reporting`: a concrete failing handoff
from the initial state over one host. -/
theorem C3_handoff_failure_reporting_witness :
    (exitAndConnect c3Env (initLoopState [demoHost])).1.ui.error_modal.shown = true ∧
    (exitAndConnect c3Env (initLoopState [demoHost])).1.ui.error_modal.message ≠ "" ∧
    applyTermTrace { raw := true, alt_screen := true }
      (exitAndConnect c3Env (initLoopState [demoHost])).2 =
      { raw := true, alt_screen := true } := by
  have h := C3_handoff_failure_reporting c3Env (initLoopState [demoHost])
    "exit status 255" rfl
  exact ⟨h.1, h.2.1, h.2.2.2.2.2⟩

lemma updateSearchResults_fields (env : StorageEnv) (s : LoopState) :
    (updateSearchResults env s).ui.search.input = s.ui.search.input ∧
    (updateSearchResults env s).ui.search.query =
      (if strTrim s.ui.search.input = "" then none else some (strTrim s.ui.search.input)) ∧
    (updateSearchResults env s).hosts =
      (if strTrim s.ui.search.input = "" then env.get_hosts
       else env.search_results (strTrim s.ui.search.input)) ∧
    (updateSearchResults env s).selected = 0 ∧
    (updateSearchResults env s).ui.search.show_popup = s.ui.search.show_popup ∧
    (updateSearchResults env s).ui.delete_confirm = s.ui.delete_confirm ∧
    (updateSearchResults env s).ui.form = s.ui.form ∧
    (updateSearchResults env s).ui.error_modal = s.ui.error_modal ∧
    (updateSearchResults env s).ui.host_key_confirm = s.ui.host_key_confirm := by
  simp only [updateSearchResults]
  split_ifs <;> exact ⟨rfl, rfl, rfl, rfl, rfl, rfl, rfl, rfl, rfl⟩

/-- A Search overlay mid-session: the operator committed `"redis"` earlier
and has re-typed the same draft. -/
def c6State : LoopState :=
  { ui := { search := { query := some "redis", show_popup := true, input := "redis" } }
    hosts := [demoHost]
    selected := 0
    table_sel := some 0 }

/-- C6 counterexample: with committed query `"redis"`, typing the single
character `x` in the Search overlay (no Enter) overwrites the committed
query to `"redisx"` — the committed query is NOT left unchanged until the
operator commits with Enter. -/
theorem C6_counterexample :
    (handleSearchEvent demoEnv (KeyCode.char 'x') c6State).ui.search.query =
      some "redisx" ∧
    c6State.ui.search.query = some "redis" ∧
    (some "redisx" : Option String) ≠ some "redis" :=
  ⟨rfl, rfl, by decide⟩

/-- C6 (amended): while the Search overlay is open, a typed character (or
backspace) updates the draft input and immediately re-runs the search
against the storage collaborator (live filtering, selection reset to the
top), but it ALSO overwrites the separately tracked committed query with
the trimmed draft (`none` when the trimmed draft is empty); the other
overlay states are untouched. -/
theorem C6_live_search (env : StorageEnv) (s : LoopState) (c : Char) :
    (handleSearchEvent env (KeyCode.char c) s).ui.search.input =
      s.ui.search.input.push c ∧
    (handleSearchEvent env (KeyCode.char c) s).ui.search.query =
      (if strTrim (s.ui.search.input.push c) = "" then none
       else some (strTrim (s.ui.search.input.push c))) ∧
    (handleSearchEvent env (KeyCode.char c) s).hosts =
      (if strTrim (s.ui.search.input.push c) = "" then env.get_hosts
       else env.search_results (strTrim (s.ui.search.input.push c))) ∧
    (handleSearchEvent env (KeyCode.char c) s).selected = 0 ∧
    (handleSearchEvent env (KeyCode.char c) s).ui.search.show_popup =
      s.ui.search.show_popup ∧
    (handleSearchEvent env (KeyCode.char c) s).ui.delete_confirm = s.ui.delete_confirm ∧
    (handleSearchEvent env (KeyCode.char c) s).ui.form = s.ui.form ∧
    (handleSearchEvent env (KeyCode.char c) s).ui.error_modal = s.ui.error_modal ∧
    (handleSearchEvent env (KeyCode.char c) s).ui.host_key_confirm =
      s.ui.host_key_confirm ∧
    (handleSearchEvent env KeyCode.backspace s).ui.search.input =
      s.ui.search.input.dropRight 1 ∧
    (handleSearchEvent env KeyCode.backspace s).ui.search.query =
      (if strTrim (s.ui.search.input.dropRight 1) = "" then none
       else some (strTrim (s.ui.search.input.dropRight 1))) := by
  have h1 := updateSearchResults_fields env
    { s with ui := { s.ui with search :=
        { s.ui.search with input := s.ui.search.input.push c } } }
  have h2 := updateSearchResults_fields env
    { s with ui := { s.ui with search :=
        { s.ui.search with input := s.ui.search.input.dropRight 1 } } }
  have hc1 : handleSearchEvent env (KeyCode.char c) s =
      updateSearchResults env { s with ui := { s.ui with search :=
        { s.ui.search with input := s.ui.search.input.push c } } } := rfl
  have hc2 : handleSearchEvent env KeyCode.backspace s =
      updateSearchResults env { s with ui := { s.ui with search :=
        { s.ui.search with input := s.ui.search.input.dropRight 1 } } } := rfl
  rw [hc1, hc2]
  exact ⟨h1.1, h1.2.1, h1.2.2.1, h1.2.2.2.1, h1.2.2.2.2.1, h1.2.2.2.2.2.1,
         h1.2.2.2.2.2.2.1, h1.2.2.2.2.2.2.2.1, h1.2.2.2.2.2.2.2.2,
         h2.1, h2.2.1⟩

/-- The Search overlay with the draft `"redis"` typed, ready to commit. -/
def c7State : LoopState :=
  { ui := { search := { query := none, show_popup := true, input := "redis" } }
    hosts := [demoHost]
    selected := 0
    table_sel := some 0 }

/-- C7: committing a draft that trims to `"redis"` with Enter stores the
committed query `"redis"` and closes the overlay; reopening the Search
overlay restores the draft input to exactly `"redis"`; and opening then
immediately closing (Escape) the overlay, from any state, leaves the
committed query unchanged. -/
theorem C7_search_query_roundtrip (env : StorageEnv) (s : LoopState)
    (h : strTrim s.ui.search.input = "redis") :
    (handleSearchEvent env KeyCode.enter s).ui.search.query = some "redis" ∧
    (handleSearchEvent env KeyCode.enter s).ui.search.show_popup = false ∧
    (handleSearchEvent env KeyCode.enter s).ui.search.input = "" ∧
    (showSearchPopup (handleSearchEvent env KeyCode.enter s).ui).search.input =
      "redis" ∧
    (showSearchPopup (handleSearchEvent env KeyCode.enter s).ui).search.show_popup =
      true ∧
    (∀ s2 : LoopState,
      (handleSearchEvent env KeyCode.esc
        { s2 with ui := showSearchPopup s2.ui }).ui.search.query =
        s2.ui.search.query) := by
  have hne : ¬strTrim s.ui.search.input = "" := by
    rw [h]
    decide
  simp only [handleSearchEvent, showSearchPopup]
  rw [if_neg hne]
  split_ifs with hh
  · exact ⟨by rw [h], by trivial, by trivial, by exact h, by trivial, fun s2 => trivial⟩
  · exact ⟨by rw [h], by trivial, by trivial, by exact h, by trivial, fun s2 => trivial⟩

/-- Witness for `C7_search_query_roundtrip` on the concrete draft. -/
theorem C7_search_query_roundtrip_witness :
    (handleSearchEvent demoEnv KeyCode.enter c7State).ui.search.query =
      some "redis" ∧
    (showSearchPopup (handleSearchEvent demoEnv KeyCode.enter c7State).ui).search.input =
      "redis" := by
  have h := C7_search_query_roundtrip demoEnv c7State rfl
  exact ⟨h.1, h.2.2.2.1⟩

/-- The DeleteConfirm overlay for `box1` with a partially typed answer. -/
def c8State : LoopState :=
  { ui := { delete_confirm := { shown := true, host := some "box1", input := "ye" } }
    hosts := [demoHost]
    selected := 0
    table_sel := some 0 }

/-- The DeleteConfirm overlay for `box1` with the answer `" YES "` typed:
not equal to `"yes"` case-insensitively (it carries spaces), yet
accepted. -/
def c8TrimState : LoopState :=
  { ui := { delete_confirm := { shown := true, host := some "box1", input := " YES " } }
    hosts := [demoHost]
    selected := 0
    table_sel := some 0 }

/-- C8 counterexample: in the DeleteConfirm overlay, the character key `x`
does NOT cancel — the dialog stays open with the host still armed and the
keystroke appended to the typed input (only Enter and Escape leave the
dialog); moreover Enter with the input `" YES "` (surrounding whitespace,
so not case-insensitively equal to `"yes"`) DOES send the delete request,
because the code trims before lowercasing. -/
theorem C8_counterexample :
    (handleDeleteConfirmEvent demoEnv (KeyCode.char 'x') c8State).1.ui.delete_confirm.shown
      = true ∧
    (handleDeleteConfirmEvent demoEnv (KeyCode.char 'x') c8State).1.ui.delete_confirm.host
      = some "box1" ∧
    (handleDeleteConfirmEvent demoEnv (KeyCode.char 'x') c8State).1.ui.delete_confirm.input
      = "yex" ∧
    (handleDeleteConfirmEvent demoEnv (KeyCode.char 'x') c8State).2 = none ∧
    (handleDeleteConfirmEvent demoEnv KeyCode.enter c8TrimState).2 = some "box1" ∧
    c8TrimState.ui.delete_confirm.input = " YES " :=
  ⟨rfl, rfl, rfl, rfl, rfl, rfl⟩

/-- C8 (amended): a delete request is sent exactly when Enter is pressed
while the trimmed, lowercased typed input equals `"yes"` and a target host
is armed — the request names that host; whenever no request is sent the
profile list is unmutated; Escape cancels by resetting the dialog; a
character key does not cancel: it appends to the typed input, leaving the
dialog open and sending nothing. -/
theorem C8_delete_confirmation (env : StorageEnv) (s : LoopState) (key : KeyCode) :
    ((handleDeleteConfirmEvent env key s).2 ≠ none ↔
      key = KeyCode.enter ∧ strToLower (strTrim s.ui.delete_confirm.input) = "yes" ∧
      s.ui.delete_confirm.host ≠ none) ∧
    (∀ h, s.ui.delete_confirm.host = some h →
      strToLower (strTrim s.ui.delete_confirm.input) = "yes" →
      (handleDeleteConfirmEvent env KeyCode.enter s).2 = some h) ∧
    ((handleDeleteConfirmEvent env key s).2 = none →
      (handleDeleteConfirmEvent env key s).1.hosts = s.hosts) ∧
    handleDeleteConfirmEvent env KeyCode.esc s =
      ({ s with ui := resetDeleteConfirm s.ui }, none) ∧
    (∀ c, (handleDeleteConfirmEvent env (KeyCode.char c) s).1.ui.delete_confirm.shown =
        s.ui.delete_confirm.shown ∧
      (handleDeleteConfirmEvent env (KeyCode.char c) s).1.ui.delete_confirm.host =
        s.ui.delete_confirm.host ∧
      (handleDeleteConfirmEvent env (KeyCode.char c) s).1.ui.delete_confirm.input =
        s.ui.delete_confirm.input.push c ∧
      (handleDeleteConfirmEvent env (KeyCode.char c) s).2 = none) := by
  refine ⟨?_, ?_, ?_, rfl, fun c => ⟨rfl, rfl, rfl, rfl⟩⟩
  · cases key with
    | enter =>
      show ((if strToLower (strTrim s.ui.delete_confirm.input) = "yes" then
              match s.ui.delete_confirm.host with
              | some h =>
                ((reloadHosts env { s with ui := resetDeleteConfirm s.ui }), some h)
              | none => (s, none)
             else (s, none)).2 ≠ none ↔ _)
      by_cases hy : strToLower (strTrim s.ui.delete_confirm.input) = "yes"
      · rw [if_pos hy]
        cases hh : s.ui.delete_confirm.host with
        | some h =>
          constructor
          · intro _
            exact ⟨rfl, hy, Option.some_ne_none h⟩
          · intro _
            exact Option.some_ne_none h
        | none =>
          constructor
          · intro hcon
            exact absurd rfl hcon
          · intro ⟨_, _, hcon⟩
            exact absurd rfl hcon
      · rw [if_neg hy]
        constructor
        · intro hcon
          exact absurd rfl hcon
        · intro ⟨_, hcon, _⟩
          exact absurd hcon hy
    | esc =>
      constructor
      · intro hcon
        exact absurd rfl hcon
      · intro ⟨hcon, _⟩
        exact KeyCode.noConfusion hcon
    | backspace =>
      constructor
      · intro hcon
        exact absurd rfl hcon
      · intro ⟨hcon, _⟩
        exact KeyCode.noConfusion hcon
    | tab =>
      constructor
      · intro hcon
        exact absurd rfl hcon
      · intro ⟨hcon, _⟩
        exact KeyCode.noConfusion hcon
    | down =>
      constructor
      · intro hcon
        exact absurd rfl hcon
      · intro ⟨hcon, _⟩
        exact KeyCode.noConfusion hcon
    | up =>
      constructor
      · intro hcon
        exact absurd rfl hcon
      · intro ⟨hcon, _⟩
        exact KeyCode.noConfusion hcon
    | left =>
      constructor
      · intro hcon
        exact absurd rfl hcon
      · intro ⟨hcon, _⟩
        exact KeyCode.noConfusion hcon
    | right =>
      constructor
      · intro hcon
        exact absurd rfl hcon
      · intro ⟨hcon, _⟩
        exact KeyCode.noConfusion hcon
    | char c =>
      constructor
      · intro hcon
        exact absurd rfl hcon
      · intro ⟨hcon, _⟩
        exact KeyCode.noConfusion hcon
    | other =>
      constructor
      · intro hcon
        exact absurd rfl hcon
      · intro ⟨hcon, _⟩
        exact KeyCode.noConfusion hcon
  · intro h hh hy
    show (if strToLower (strTrim s.ui.delete_confirm.input) = "yes" then
            match s.ui.delete_confirm.host with
            | some h =>
              ((reloadHosts env { s with ui := resetDeleteConfirm s.ui }), some h)
            | none => (s, none)
           else (s, none)).2 = some h
    rw [if_pos hy, hh]
  · intro hnone
    cases key with
    | enter =>
      revert hnone
      show (if strToLower (strTrim s.ui.delete_confirm.input) = "yes" then
              match s.ui.delete_confirm.host with
              | some h =>
                ((reloadHosts env { s with ui := resetDeleteConfirm s.ui }), some h)
              | none => (s, none)
             else (s, none)).2 = none →
        (if strToLower (strTrim s.ui.delete_confirm.input) = "yes" then
              match s.ui.delete_confirm.host with
              | some h =>
                ((reloadHosts env { s with ui := resetDeleteConfirm s.ui }), some h)
              | none => (s, none)
             else (s, none)).1.hosts = s.hosts
      by_cases hy : strToLower (strTrim s.ui.delete_confirm.input) = "yes"
      · rw [if_pos hy]
        cases hh : s.ui.delete_confirm.host with
        | some h =>
          intro hcon
          exact absurd hcon (Option.some_ne_none h)
        | none =>
          intro _
          rfl
      · rw [if_neg hy]
        intro _
        rfl
    | esc => rfl
    | backspace => rfl
    | tab => rfl
    | down => rfl
    | up => rfl
    | left => rfl
    | right => rfl
    | char c => rfl
    | other => rfl

/-- Witness for `C8_delete_confirmation`: concrete accept and concrete
non-cancelling keystroke. -/
theorem C8_delete_confirmation_witness :
    (handleDeleteConfirmEvent demoEnv KeyCode.enter c8TrimState).2 = some "box1" ∧
    (handleDeleteConfirmEvent demoEnv (KeyCode.char 'x') c8State).1.ui.delete_confirm.shown
      = c8State.ui.delete_confirm.shown ∧
    (handleDeleteConfirmEvent demoEnv (KeyCode.char 'x') c8State).2 = none ∧
    handleDeleteConfirmEvent demoEnv KeyCode.esc c8State =
      ({ c8State with ui := resetDeleteConfirm c8State.ui }, none) := by
  have h1 := C8_delete_confirmation demoEnv c8TrimState KeyCode.enter
  have h2 := C8_delete_confirmation demoEnv c8State (KeyCode.char 'x')
  exact ⟨h1.2.1 "box1" rfl rfl, (h2.2.2.2.2 'x').1, (h2.2.2.2.2 'x').2.2.2,
         h2.2.2.2.1⟩

lemma demoHosts_wf : WFHosts [demoHost] := by
  intro h hm
  rcases List.mem_cons.1 hm with h1 | h1
  · subst h1
    decide
  · exact absurd h1 (List.not_mem_nil _)

lemma demoEnv_wf : EnvWF demoEnv :=
  ⟨demoHosts_wf, fun q h hm => absurd hm (List.not_mem_nil _)⟩

/-- The state after opening the Add form (`a`) from the initial view over
the one-host demo list. -/
def c1AddState : LoopState :=
  ((iterStep demoEnv (some (KeyCode.char 'a')) (initLoopState [demoHost])).getD
    (initLoopState [demoHost], false)).1

/-- The state after then pressing `s` (Save) on the fresh, still empty Add
form: validation fails on the empty host field. -/
def c1State : LoopState :=
  ((iterStep demoEnv (some (KeyCode.char 's')) c1AddState).getD
    (initLoopState [demoHost], false)).1

/-- C1 counterexample: the event router reaches (initial view, `a`, `s`) a
state in which the Form overlay and the ErrorDialog are BOTH active — the
form-validation error of Save keeps the form open while showing the error
dialog, contradicting the claim that no operation leaves two overlays
active simultaneously. -/
theorem C1_counterexample :
    Reachable c1State ∧ c1State.ui.form.show_add = true ∧
    c1State.ui.error_modal.shown = true := by
  have h0 : Reachable (initLoopState [demoHost]) :=
    Reachable.init [demoHost] (by decide) demoHosts_wf
  have h1 : Reachable c1AddState :=
    Reachable.step demoEnv (some (KeyCode.char 'a')) _ _ demoEnv_wf h0 rfl
  exact ⟨Reachable.step demoEnv (some (KeyCode.char 's')) _ _ demoEnv_wf h1 rfl,
         rfl, rfl⟩

/-- C1 (amended): in every reachable state, at most one of the four
overlays Search, DeleteConfirm, Form and HostKeyConfirm is active, and the
ErrorDialog is never active together with Search, DeleteConfirm or
HostKeyConfirm; but the ErrorDialog CAN be active on top of the Form (the
form-validation error path), so the at-most-one claim holds only for the
four non-error overlays. -/
theorem C1_overlay_exclusivity {s : LoopState} (hr : Reachable s) :
    OverlayInv s.ui :=
  (reachable_inv hr).1

/-- Witness for `C1_overlay_exclusivity` at the entry state. -/
theorem C1_overlay_exclusivity_witness :
    OverlayInv (initLoopState [demoHost]).ui :=
  C1_overlay_exclusivity (Reachable.init [demoHost] (by decide) demoHosts_wf)

/-- C9: in every reachable state showing the Edit form, the read-only
host-identifier field (index 0) is never mutated by any key event that
keeps the form open — in particular not by character keys or backspace.
(The focus-movement functions skip the read-only field in edit mode, and
`show_edit_form` starts at field 1, so the field can in fact never even
hold focus in edit mode; the unguarded `q`/`s` pushes of
`handle_form_event` are therefore harmless.) -/
theorem C9_edit_host_readonly (env : StorageEnv) {s : LoopState}
    (henv : EnvWF env) (hr : Reachable s)
    (hse : s.ui.form.show_edit = true)
    (key : KeyCode) (p : LoopState × Option SaveRequest)
    (hp : handleFormEvent env key s = some p)
    (hopen : p.1.ui.form.show_add = true ∨ p.1.ui.form.show_edit = true) :
    p.1.ui.form.fields.get? 0 = s.ui.form.fields.get? 0 := by
  obtain ⟨ho, hsel, hform, hedit, hdel, hwf⟩ := reachable_inv hr
  have hfs : s.ui.form.show_add = true ∨ s.ui.form.show_edit = true := Or.inr hse
  have hlen : s.ui.form.fields.length = 7 := hform hfs
  have hfoc0_of_edit : s.ui.form.editing_field = true → s.ui.form.focus_index ≠ 0 := by
    intro hed h0
    have := (hedit hse).2 h0
    rw [this] at hed
    exact Bool.noConfusion hed
  cases key with
  | esc =>
    by_cases hed : s.ui.form.editing_field = true
    · simp [handleFormEvent, hed] at hp
      subst hp
      rfl
    · simp [handleFormEvent, hed] at hp
      subst hp
      rcases hopen with h | h <;> exact Bool.noConfusion h
  | tab =>
    by_cases hed : s.ui.form.editing_field = true
    · simp [handleFormEvent, hed] at hp
      subst hp
      rfl
    · simp [handleFormEvent, hed] at hp
      subst hp
      show (moveFormFocusDown s.ui).form.fields.get? 0 = s.ui.form.fields.get? 0
      simp only [moveFormFocusDown]
      split_ifs <;> rfl
  | down =>
    by_cases hed : s.ui.form.editing_field = true
    · simp [handleFormEvent, hed] at hp
      subst hp
      rfl
    · simp [handleFormEvent, hed] at hp
      subst hp
      show (moveFormFocusDown s.ui).form.fields.get? 0 = s.ui.form.fields.get? 0
      simp only [moveFormFocusDown]
      split_ifs <;> rfl
  | up =>
    by_cases hed : s.ui.form.editing_field = true
    · simp [handleFormEvent, hed] at hp
      subst hp
      rfl
    · simp [handleFormEvent, hed] at hp
      subst hp
      show (moveFormFocusUp s.ui).form.fields.get? 0 = s.ui.form.fields.get? 0
      simp only [moveFormFocusUp]
      split_ifs <;> rfl
  | enter =>
    simp [handleFormEvent] at hp
    subst hp
    show (handleFormEnter s.ui).form.fields.get? 0 = s.ui.form.fields.get? 0
    simp only [handleFormEnter]
    split_ifs <;> rfl
  | char c =>
    by_cases hcq : c = 'q'
    · by_cases hed : s.ui.form.editing_field = true
      · simp [handleFormEvent, hcq, hed, pushCharUnchecked] at hp
        split at hp
        next hfb =>
          subst hp
          exact setFieldValue_get?_ne s.ui.form.fields 0 (hfoc0_of_edit hed)
            (fun v => v.push 'q')
        next hfb =>
          subst hp
          rfl
      · simp [handleFormEvent, hcq, hed] at hp
        subst hp
        rcases hopen with h | h <;> exact Bool.noConfusion h
    · by_cases hcs : c = 's'
      · by_cases hed : s.ui.form.editing_field = true
        · simp [handleFormEvent, hcq, hcs, hed, pushCharUnchecked] at hp
          split at hp
          next hfb =>
            subst hp
            exact setFieldValue_get?_ne s.ui.form.fields 0 (hfoc0_of_edit hed)
              (fun v => v.push 's')
          next hfb =>
            subst hp
            rfl
        · obtain ⟨⟨s', saved, req⟩, hsr⟩ :=
            Option.isSome_iff_exists.1 (saveFormData_isSome env hlen)
          have hsfd := inv_saveFormData env henv ⟨ho, hsel, hform, hedit, hdel, hwf⟩ hfs
            (s', saved, req) hsr
          cases saved with
          | true =>
            simp [handleFormEvent, hcq, hcs, hed, hsr] at hp
            subst hp
            rcases hopen with h | h <;> exact Bool.noConfusion h
          | false =>
            simp [handleFormEvent, hcq, hcs, hed, hsr] at hp
            subst hp
            rw [hsfd.1]
      · by_cases hed : s.ui.form.editing_field = true
        · simp [handleFormEvent, hcq, hcs, hed, handleFormInput] at hp
          split at hp
          next hg =>
            subst hp
            exact setFieldValue_get?_ne s.ui.form.fields 0 (hg.2 hse)
              (fun v => v.push c)
          next hg =>
            subst hp
            rfl
        · simp [handleFormEvent, hcq, hcs, hed] at hp
          subst hp
          rfl
  | backspace =>
    by_cases hed : s.ui.form.editing_field = true
    · simp [handleFormEvent, hed, handleFormBackspace] at hp
      split at hp
      next hg =>
        subst hp
        exact setFieldValue_get?_ne s.ui.form.fields 0 (hg.2 hse)
          (fun v => v.dropRight 1)
      next hg =>
        subst hp
        rfl
    · simp [handleFormEvent, hed] at hp
      subst hp
      rfl
  | left =>
    simp [handleFormEvent] at hp
    subst hp
    rfl
  | right =>
    simp [handleFormEvent] at hp
    subst hp
    rfl
  | other =>
    simp [handleFormEvent] at hp
    subst hp
    rfl

/-- The state after opening the Edit form (`e`) from the initial view over
the one-host demo list: `show_edit` = true, focus starts on field 1. -/
def c9State : LoopState :=
  ((iterStep demoEnv (some (KeyCode.char 'e')) (initLoopState [demoHost])).getD
    (initLoopState [demoHost], false)).1

lemma c9State_reachable : Reachable c9State :=
  Reachable.step demoEnv (some (KeyCode.char 'e')) _ _ demoEnv_wf
    (Reachable.init [demoHost] (by decide) demoHosts_wf) rfl

/-- Witness for `C9_edit_host_readonly`: a character key on a concrete
reachable Edit form leaves the host-identifier field untouched. -/
theorem C9_edit_host_readonly_witness :
    (c9State, (none : Option SaveRequest)).1.ui.form.fields.get? 0 =
      c9State.ui.form.fields.get? 0 :=
  C9_edit_host_readonly demoEnv demoEnv_wf c9State_reachable rfl
    (KeyCode.char 'x') (c9State, none) rfl (Or.inr rfl)

lemma iterStep_isSome (env : StorageEnv) (key : Option KeyCode) {s : LoopState}
    (henv : EnvWF env) (hinv : Inv s) : (iterStep env key s).isSome = true := by
  cases key with
  | none => rfl
  | some k => exact (inv_processKey env k henv (inv_merge env hinv)).1

/-- C10: in every reachable state, a non-empty displayed host list keeps
the selected index strictly below the list length, mirrored in the table
selection (an empty list clears the table selection), so the
`hosts[selected]` reads of the main-list key handlers are always in
bounds — and a full router iteration on any key never hits the
out-of-bounds (panic) case. -/
theorem C10_selection_safety {s : LoopState} (hr : Reachable s) :
    (s.hosts ≠ [] → s.selected < s.hosts.length ∧ s.table_sel = some s.selected ∧
      (s.hosts.get? s.selected).isSome = true) ∧
    (s.hosts = [] → s.table_sel = none) ∧
    (∀ env key, EnvWF env → (iterStep env key s).isSome = true) := by
  have hinv := reachable_inv hr
  refine ⟨?_, hinv.2.1.2, fun env key henv => iterStep_isSome env key henv hinv⟩
  intro hne
  obtain ⟨hlt, hts⟩ := hinv.2.1.1 hne
  refine ⟨hlt, hts, ?_⟩
  rw [List.get?_eq_get hlt]
  rfl

/-- Witness for `C10_selection_safety` at the entry state over one host. -/
theorem C10_selection_safety_witness :
    (initLoopState [demoHost]).selected < (initLoopState [demoHost]).hosts.length ∧
    (initLoopState [demoHost]).table_sel = some (initLoopState [demoHost]).selected ∧
    (iterStep demoEnv (some KeyCode.enter) (initLoopState [demoHost])).isSome = true := by
  have h := C10_selection_safety (Reachable.init [demoHost] (by decide) demoHosts_wf)
  obtain ⟨h1, h2, h3⟩ := h.1 (by decide)
  exact ⟨h1, h2, h.2.2 demoEnv (some KeyCode.enter) demoEnv_wf⟩

lemma firstNonWildcard_mem {toks : List String} {x : String}
    (h : firstNonWildcard toks = some x) : x ∈ toks := by
  induction toks with
  | nil => exact Option.noConfusion h
  | cons tok rest ih =>
    by_cases ht : tok ≠ "*"
    · rw [firstNonWildcard, if_pos ht] at h
      cases Option.some.inj h
      exact List.mem_cons_self _ _
    · rw [firstNonWildcard, if_neg ht] at h
      exact List.mem_cons_of_mem _ (ih h)

lemma applyOptionLine_host (line : String) (h : SshHost) :
    (applyOptionLine line h).host = h.host := by
  simp only [applyOptionLine]
  split_ifs <;> rfl

lemma parseConfigLine_wf (acc : List SshHost × Option SshHost) (line : String)
    (h1 : ∀ h ∈ acc.1, h.host ≠ "") (h2 : ∀ h, acc.2 = some h → h.host ≠ "") :
    (∀ h ∈ (parseConfigLine acc line).1, h.host ≠ "") ∧
    (∀ h, (parseConfigLine acc line).2 = some h → h.host ≠ "") := by
  simp only [parseConfigLine]
  split_ifs with hHost
  · have hflushed :
        ∀ h ∈ (match acc.2 with
               | some h => acc.1 ++ [h]
               | none => acc.1), h.host ≠ "" := by
      cases ha : acc.2 with
      | some hcur =>
        intro h hm
        rcases List.mem_append.1 hm with hm1 | hm1
        · exact h1 h hm1
        · rcases List.mem_cons.1 hm1 with he | he
          · subst he
            exact h2 h ha
          · exact absurd he (List.not_mem_nil _)
      | none => exact h1
    cases hf : firstNonWildcard
        (((line.trim.drop 5).split (fun c => c.isWhitespace)).filter
          (fun tk => tk ≠ "")) with
    | some name =>
      refine ⟨hflushed, ?_⟩
      intro h hh
      cases Option.some.inj hh
      have hmem := firstNonWildcard_mem hf
      have hne := (List.mem_filter.1 hmem).2
      exact of_decide_eq_true hne
    | none => exact ⟨hflushed, fun h hh => Option.noConfusion hh⟩
  · cases ha : acc.2 with
    | some hcur =>
      refine ⟨h1, ?_⟩
      intro h hh
      cases Option.some.inj hh
      rw [applyOptionLine_host]
      exact h2 hcur ha
    | none => exact ⟨h1, fun h hh => Option.noConfusion hh⟩

lemma parse_foldl_wf (lines : List String) :
    ∀ (acc : List SshHost × Option SshHost),
    (∀ h ∈ acc.1, h.host ≠ "") → (∀ h, acc.2 = some h → h.host ≠ "") →
    (∀ h ∈ (lines.foldl parseConfigLine acc).1, h.host ≠ "") ∧
    (∀ h, (lines.foldl parseConfigLine acc).2 = some h → h.host ≠ "") := by
  induction lines with
  | nil => exact fun acc h1 h2 => ⟨h1, h2⟩
  | cons line rest ih =>
    intro acc h1 h2
    have hstep := parseConfigLine_wf acc line h1 h2
    rw [List.foldl_cons]
    exact ih (parseConfigLine acc line) hstep.1 hstep.2

/-- `parse_ssh_config` only produces non-empty host identifiers: the `Host`
tokens are split on whitespace and filtered non-empty before one is taken,
and option lines never touch the identifier.  This grounds the `EnvWF`
assumption placed on the storage collaborator in `Reachable.step`. -/
lemma parseSshConfig_wf (lines : List String) : WFHosts (parseSshConfig lines) := by
  have hfold := parse_foldl_wf lines ([], none)
    (fun h hm => absurd hm (List.not_mem_nil _))
    (fun h hh => Option.noConfusion hh)
  intro h hm
  revert hm
  simp only [parseSshConfig]
  cases ha : (lines.foldl parseConfigLine ([], none)).2 with
  | some hcur =>
    intro hm
    rcases List.mem_append.1 hm with hm1 | hm1
    · exact hfold.1 h hm1
    · rcases List.mem_cons.1 hm1 with he | he
      · subst he
        exact hfold.2 h ha
      · exact absurd he (List.not_mem_nil _)
  | none => exact hfold.1 h

end SshConn
